import Mathlib

/-!
Verification development for the DCSS webtiles client (`dcss_ai`).

The definitions below are a shallow embedding of the live code in
`dcss_ai/game/core.py` (class `DCSSGame`, built from the mixins in
`dcss_ai/game/*.py`), `dcss_ai/game/actions.py` and `dcss_ai/webtiles.py`.
Python dictionaries are modelled as functions into `Option`, JSON scalars as
the inductive `Value`, and the network as explicit scripts of already-decoded
messages (the decoding layer is `webtiles.py`; its timing behaviour is
modelled separately for `recv_messages`).
-/

namespace Dcss

/-- A JSON scalar value as it appears in webtiles message payloads. -/
inductive Value where
  | vStr (s : String)
  | vInt (n : Int)
  | vBool (b : Bool)
  | vNull
deriving DecidableEq, Repr

/-- A Python dict with string keys, modelled extensionally:
`d k = none` means the key is absent. -/
def Dict : Type := String → Option Value

/-- The empty dict. -/
def emptyDict : Dict := fun _ => none

/-- Build a dict from an association list (later entries win, as in a
Python dict literal with distinct keys). -/
def dictOf (l : List (String × Value)) : Dict :=
  l.foldl (fun d kv => fun k => if k = kv.1 then some kv.2 else d k) emptyDict

/-- `d.update(m)` for Python dicts: bindings of `m` win. -/
def dictUpdate (d m : Dict) : Dict :=
  fun k => match m k with
  | some v => some v
  | none => d k

/-- `d[key] = v` for a Python dict. -/
def dictSet (d : Dict) (key : String) (v : Value) : Dict :=
  fun k => if k = key then some v else d k

/-- Map coordinates, as the `(x, y)` tuples keying the mirror tables. -/
def Pos : Type := Int × Int

instance : DecidableEq Pos := fun a b => instDecidableEqProd a b

/-- Update of a function-backed table at one key. -/
def fset {α β : Type} [DecidableEq α] (m : α → Option β) (a : α) (b : Option β) :
    α → Option β :=
  fun x => if x = a then b else m x

/-- The `mon` entry of a map cell: key absent, present but falsy
(`None`/`{}`), or a monster dict. -/
inductive MonField where
  | absent
  | falsy
  | mons (m : Dict)

/-- The `fg` entry of a map cell: a plain number or a `[lo, hi]` pair. -/
inductive FgField where
  | fgOne (n : Nat)
  | fgPair (lo hi : Nat)

/-- One cell of a map-diff batch (`_update_map` reads exactly these keys;
`ov` holds any overlay-key bindings of the cell's dict). -/
structure Cell where
  x : Option Int := none
  y : Option Int := none
  g : Option String := none
  f : Option Int := none
  ov : String → Option Value := fun _ => none
  fg : Option FgField := none
  mon : MonField := .absent

/-- The overlay keys scanned by `_update_map`. -/
def overlayKeys : List String :=
  ["silenced", "sanctuary", "halo", "liquefied",
   "orb_glow", "quad_glow", "disjunct", "awakened_forest",
   "blasphemy", "highlighted_summoner"]

/-- The `overlays` dict collected for one cell, as the ordered pairs the
extraction loop would insert. -/
def extractOverlays (c : Cell) : List (String × Value) :=
  overlayKeys.filterMap fun k => (c.ov k).map fun v => (k, v)

/-- One entry of a `status` list in a player diff (also the shape stored in
`_status_effects`). -/
structure StatusEntry where
  light : Option Value := none
  text : Option Value := none
  desc : Option Value := none
deriving DecidableEq

/-- The in-memory mirror of `DCSSGame`: every attribute initialised in
`DCSSGame.__init__` that the verified operations read or write.  `ws`
models `_ws is not None`; `statusDyn` models the dynamic attribute
`_status` read through `hasattr` by `auto_play.check_status_effects` — no
assignment to `_status` exists anywhere in the repository, so no embedded
operation ever sets it; `lastAutoPlayTurn` models the dynamic attribute
`_last_auto_play_turn` read through `getattr` with default `-1`. -/
structure GameState where
  ws : Bool
  connected : Bool
  in_game : Bool
  game_ids : List String
  attempt : Int
  wins : Int
  hp : Int
  max_hp : Int
  mp : Int
  max_mp : Int
  ac : Int
  ev : Int
  sh : Int
  str : Int
  int : Int
  dex : Int
  xl : Int
  place : String
  depth : Int
  god : String
  gold : Int
  position : Int × Int
  turn : Int
  is_dead : Bool
  actions_since_narrate : Int
  session_ended : Bool
  species : String
  title : String
  consecutive_timeouts : Int
  consecutive_failed_moves : Int
  inventory : Int → Option Dict
  messages : List String
  map_cells : Pos → Option String
  tile_fg : Pos → Option Nat
  cell_features : Pos → Option Int
  cell_overlays : Pos → Option (List (String × Value))
  monsters : Pos → Option Dict
  monster_names : Value → Option Value
  current_menu : Option Dict
  menu_items : List Dict
  current_popup : Option Dict
  pending_prompt : Option String
  status_effects : List StatusEntry
  poison_survival : Int
  real_hp_max : Int
  piety_rank : Int
  penance : Bool
  contam : Int
  noise : Int
  adjusted_noise : Int
  form : Int
  quiver_desc : String
  elapsed_time : Int
  xl_progress : Int
  weapon_index : Int
  offhand_index : Int
  ac_mod : Int
  ev_mod : Int
  sh_mod : Int
  doom : Int
  lives : Int
  deaths : Int
  statusDyn : Option (List String)
  lastAutoPlayTurn : Option Int

/-- The state as `DCSSGame.__init__` leaves it (persistent overlay stats
taken as zero; `ws`/`connected` false until `connect`). -/
def initState : GameState where
  ws := false
  connected := false
  in_game := false
  game_ids := []
  attempt := 0
  wins := 0
  hp := 0
  max_hp := 0
  mp := 0
  max_mp := 0
  ac := 0
  ev := 0
  sh := 0
  str := 0
  int := 0
  dex := 0
  xl := 1
  place := ""
  depth := 0
  god := ""
  gold := 0
  position := (0, 0)
  turn := 0
  is_dead := false
  actions_since_narrate := 0
  session_ended := false
  species := ""
  title := ""
  consecutive_timeouts := 0
  consecutive_failed_moves := 0
  inventory := fun _ => none
  messages := []
  map_cells := fun _ => none
  tile_fg := fun _ => none
  cell_features := fun _ => none
  cell_overlays := fun _ => none
  monsters := fun _ => none
  monster_names := fun _ => none
  current_menu := none
  menu_items := []
  current_popup := none
  pending_prompt := none
  status_effects := []
  poison_survival := 0
  real_hp_max := 0
  piety_rank := 0
  penance := false
  contam := 0
  noise := -1
  adjusted_noise := -1
  form := 0
  quiver_desc := ""
  elapsed_time := 0
  xl_progress := 0
  weapon_index := -1
  offhand_index := -1
  ac_mod := 0
  ev_mod := 0
  sh_mod := 0
  doom := 0
  lives := 0
  deaths := 0
  statusDyn := none
  lastAutoPlayTurn := none

/-- The `pos` entry of a player diff: key absent handled by `Option`
outside, a non-dict value (ignored by the code), or a dict with optional
`x`/`y`. -/
inductive PosField where
  | notDict
  | posd (x y : Option Int)

/-- A `player` message: each `field_map` key as an optional typed value,
plus the `pos`, `inv` and `status` sub-objects.  An `inv` item of `none`
models a falsy `item_data`. -/
structure PlayerMsg where
  hp : Option Int := none
  hp_max : Option Int := none
  mp : Option Int := none
  mp_max : Option Int := none
  ac : Option Int := none
  ev : Option Int := none
  sh : Option Int := none
  str : Option Int := none
  int : Option Int := none
  dex : Option Int := none
  xl : Option Int := none
  place : Option String := none
  depth : Option Int := none
  god : Option String := none
  gold : Option Int := none
  turn : Option Int := none
  species : Option String := none
  title : Option String := none
  poison_survival : Option Int := none
  real_hp_max : Option Int := none
  piety_rank : Option Int := none
  penance : Option Bool := none
  contam : Option Int := none
  adjusted_noise : Option Int := none
  form : Option Int := none
  quiver_desc : Option String := none
  time : Option Int := none
  progress : Option Int := none
  weapon_index : Option Int := none
  offhand_index : Option Int := none
  ac_mod : Option Int := none
  ev_mod : Option Int := none
  sh_mod : Option Int := none
  doom : Option Int := none
  lives : Option Int := none
  deaths : Option Int := none
  pos : Option PosField := none
  inv : Option (List (Int × Option Dict)) := none
  status : Option (List StatusEntry) := none

/-- A `status` entry kept by `_update_player`: the effect dict built from
the present keys, skipped when empty. -/
def mkEffect (e : StatusEntry) : Option StatusEntry :=
  if e.light = none ∧ e.text = none ∧ e.desc = none then none else some e

/-- One `inv` diff entry applied to the inventory table: truthy data is an
upsert, falsy data a `pop`. -/
def applyInvEntry (inv : Int → Option Dict) (entry : Int × Option Dict) :
    Int → Option Dict :=
  match entry.2 with
  | some d => fset inv entry.1 (some d)
  | none => fset inv entry.1 none

/-- `DCSSGame._update_player`: copy each present `field_map` key into its
attribute, then apply `pos`, `inv` (per-slot upsert/delete) and `status`
(wholesale rebuild) when present. -/
def update_player (s : GameState) (pm : PlayerMsg) : GameState :=
  { s with
    hp := pm.hp.getD s.hp
    max_hp := pm.hp_max.getD s.max_hp
    mp := pm.mp.getD s.mp
    max_mp := pm.mp_max.getD s.max_mp
    ac := pm.ac.getD s.ac
    ev := pm.ev.getD s.ev
    sh := pm.sh.getD s.sh
    str := pm.str.getD s.str
    int := pm.int.getD s.int
    dex := pm.dex.getD s.dex
    xl := pm.xl.getD s.xl
    place := pm.place.getD s.place
    depth := pm.depth.getD s.depth
    god := pm.god.getD s.god
    gold := pm.gold.getD s.gold
    turn := pm.turn.getD s.turn
    species := pm.species.getD s.species
    title := pm.title.getD s.title
    poison_survival := pm.poison_survival.getD s.poison_survival
    real_hp_max := pm.real_hp_max.getD s.real_hp_max
    piety_rank := pm.piety_rank.getD s.piety_rank
    penance := pm.penance.getD s.penance
    contam := pm.contam.getD s.contam
    adjusted_noise := pm.adjusted_noise.getD s.adjusted_noise
    form := pm.form.getD s.form
    quiver_desc := pm.quiver_desc.getD s.quiver_desc
    elapsed_time := pm.time.getD s.elapsed_time
    xl_progress := pm.progress.getD s.xl_progress
    weapon_index := pm.weapon_index.getD s.weapon_index
    offhand_index := pm.offhand_index.getD s.offhand_index
    ac_mod := pm.ac_mod.getD s.ac_mod
    ev_mod := pm.ev_mod.getD s.ev_mod
    sh_mod := pm.sh_mod.getD s.sh_mod
    doom := pm.doom.getD s.doom
    lives := pm.lives.getD s.lives
    deaths := pm.deaths.getD s.deaths
    position :=
      match pm.pos with
      | some (.posd x y) => (x.getD 0, y.getD 0)
      | some .notDict => s.position
      | none => s.position
    inventory :=
      match pm.inv with
      | some entries => entries.foldl applyInvEntry s.inventory
      | none => s.inventory
    status_effects :=
      match pm.status with
      | some entries => entries.filterMap mkEffect
      | none => s.status_effects }

/-- `mon_data.get("id")`: a JSON null behaves like an absent key under
`is not None`. -/
def monId (m : Dict) : Option Value :=
  match m "id" with
  | some .vNull => none
  | some v => some v
  | none => none

/-- The glyph write of one resolved cell (`if "g" in cell`). -/
def cellG (s : GameState) (p : Pos) (c : Cell) : GameState :=
  match c.g with
  | some g => { s with map_cells := fset s.map_cells p (some g) }
  | none => s

/-- The feature write of one resolved cell (`if "f" in cell`). -/
def cellF (s : GameState) (p : Pos) (c : Cell) : GameState :=
  match c.f with
  | some f => { s with cell_features := fset s.cell_features p (some f) }
  | none => s

/-- The overlay write of one resolved cell: store the collected overlay
dict when non-empty, otherwise delete a previously stored one. -/
def cellOv (s : GameState) (p : Pos) (c : Cell) : GameState :=
  let ovs := extractOverlays c
  if ovs ≠ [] then
    { s with cell_overlays := fset s.cell_overlays p (some ovs) }
  else if (s.cell_overlays p).isSome then
    { s with cell_overlays := fset s.cell_overlays p none }
  else s

/-- The foreground-flag write of one resolved cell, splicing a `[lo, hi]`
pair into one 64-bit value. -/
def cellFg (s : GameState) (p : Pos) (c : Cell) : GameState :=
  match c.fg with
  | some (.fgPair lo hi) =>
    { s with tile_fg := fset s.tile_fg p (some ((hi <<< 32) ||| (lo &&& 0xFFFFFFFF))) }
  | some (.fgOne n) => { s with tile_fg := fset s.tile_fg p (some n) }
  | none => s

/-- The monster write of one resolved cell: cache the name by id, merge
the sub-object into any existing entry at the coordinate, inject a cached
name when the merge still lacks one; a falsy sub-object deletes the
entry; an absent key leaves it alone. -/
def cellMon (s : GameState) (p : Pos) (c : Cell) : GameState :=
  match c.mon with
  | .absent => s
  | .falsy =>
    if (s.monsters p).isSome then
      { s with monsters := fset s.monsters p none }
    else s
  | .mons m =>
    let mid := monId m
    let names1 :=
      match m "name", mid with
      | some nm, some i => fset s.monster_names i (some nm)
      | _, _ => s.monster_names
    let existing := (s.monsters p).getD emptyDict
    let existing2 := dictUpdate existing m
    let existing3 :=
      if existing2 "name" = none then
        match mid with
        | some i =>
          match names1 i with
          | some nm => dictSet existing2 "name" nm
          | none => existing2
        | none => existing2
      else existing2
    { s with monster_names := names1, monsters := fset s.monsters p (some existing3) }

/-- The per-cell body of `_update_map` once the cursor has resolved to a
concrete coordinate: write `g`, `f`, overlays, `fg` and the monster entry
(with name caching and cached-name injection) in source order. -/
def applyCellPayload (s : GameState) (p : Pos) (c : Cell) : GameState :=
  let s1 := match c.g with
    | some g => { s with map_cells := fset s.map_cells p (some g) }
    | none => s
  let s2 := match c.f with
    | some f => { s1 with cell_features := fset s1.cell_features p (some f) }
    | none => s1
  let ovs := extractOverlays c
  let s3 :=
    if ovs ≠ [] then
      { s2 with cell_overlays := fset s2.cell_overlays p (some ovs) }
    else if (s2.cell_overlays p).isSome then
      { s2 with cell_overlays := fset s2.cell_overlays p none }
    else s2
  let s4 := match c.fg with
    | some (.fgPair lo hi) =>
      { s3 with tile_fg := fset s3.tile_fg p (some ((hi <<< 32) ||| (lo &&& 0xFFFFFFFF))) }
    | some (.fgOne n) => { s3 with tile_fg := fset s3.tile_fg p (some n) }
    | none => s3
  match c.mon with
  | .absent => s4
  | .falsy =>
    if (s4.monsters p).isSome then
      { s4 with monsters := fset s4.monsters p none }
    else s4
  | .mons m =>
    let mid := monId m
    let names1 :=
      match m "name", mid with
      | some nm, some i => fset s4.monster_names i (some nm)
      | _, _ => s4.monster_names
    let existing := (s4.monsters p).getD emptyDict
    let existing2 := dictUpdate existing m
    let existing3 :=
      if existing2 "name" = none then
        match mid with
        | some i =>
          match names1 i with
          | some nm => dictSet existing2 "name" nm
          | none => existing2
        | none => existing2
      else existing2
    { s4 with monster_names := names1, monsters := fset s4.monsters p (some existing3) }

/-- The cursor update at the head of each cell: an explicit `x` or `y`
key overrides the running coordinate. -/
def absorbCell (cur : Option Int × Option Int) (c : Cell) :
    Option Int × Option Int :=
  (match c.x with | some v => some v | none => cur.1,
   match c.y with | some v => some v | none => cur.2)

/-- The cell loop of `_update_map`: cells are skipped until both
coordinates are known; afterwards each cell writes its payload and the
cursor advances one column. -/
def applyCells (s : GameState) (cur : Option Int × Option Int) :
    List Cell → GameState
  | [] => s
  | c :: rest =>
    match absorbCell cur c with
    | (some x, some y) =>
      applyCells (applyCellPayload s (x, y) c) (some (x + 1), some y) rest
    | cur1 => applyCells s cur1 rest

/-- `DCSSGame._update_map` on the `cells` list of a `map` message. -/
def update_map (s : GameState) (cells : List Cell) : GameState :=
  match cells with
  | [] => s
  | _ => applyCells s (none, none) cells

/-- One left-to-right pass removing every leftmost non-overlapping markup
tag (an opening bracket, one or more non-closing characters, a closing
bracket), as the substitution in `_update_messages` performs.  The second
argument buffers the characters of a candidate tag still awaiting its
closing bracket; a candidate that never closes (or closes immediately) is
emitted literally, exactly as the pattern fails to match there. -/
def stripTagsAux : List Char → Option (List Char) → List Char
  | [], none => []
  | [], some buf => '<' :: buf
  | c :: rest, none =>
    if c = '<' then stripTagsAux rest (some [])
    else c :: stripTagsAux rest none
  | c :: rest, some buf =>
    if c = '>' then
      match buf with
      | [] => '<' :: '>' :: stripTagsAux rest none
      | _ => stripTagsAux rest none
    else stripTagsAux rest (some (buf ++ [c]))

/-- Removal of every markup tag from a message text. -/
def strip_tags (l : List Char) : List Char := stripTagsAux l none

/-- Whitespace trim at both ends, as `str.strip()`. -/
def trimChars (l : List Char) : List Char :=
  ((l.dropWhile Char.isWhitespace).reverse.dropWhile Char.isWhitespace).reverse

/-- The cleaning applied to each incoming message text. -/
def cleanText (t : String) : String :=
  ⟨trimChars (strip_tags t.toList)⟩

/-- Substring search on char lists (`needle in hay` for Python strings). -/
def containsChars (n : List Char) : List Char → Bool
  | [] => n.isPrefixOf []
  | c :: t => n.isPrefixOf (c :: t) || containsChars n t

/-- Python's `needle in hay` on strings. -/
def containsStr (hay needle : String) : Bool :=
  containsChars needle.toList hay.toList

/-- Python's `l[-n:]` on a list (also correct for the empty list). -/
def lastN {α : Type} (n : Nat) (l : List α) : List α :=
  l.drop (l.length - n)

/-- `DCSSGame._update_messages`: append each cleaned non-empty text, then
trim the buffer to the last 100 entries once it exceeds 200. -/
def update_messages (s : GameState) (texts : List String) : GameState :=
  let msgs := texts.foldl
    (fun acc t =>
      if t ≠ "" then
        let c := cleanText t
        if c ≠ "" then acc ++ [c] else acc
      else acc)
    s.messages
  { s with messages := if msgs.length > 200 then msgs.drop (msgs.length - 100) else msgs }

/-- The decoded webtiles messages consumed by the embedded operations.
Payload dicts carry every key except `msg`.  `other` stands for any message
kind none of the handlers reads. -/
inductive Msg where
  | mplayer (pm : PlayerMsg)
  | mmap (cells : List Cell)
  | mmsgs (texts : List String)
  | input_mode (mode : Int)
  | close
  | ui_push (d : Dict)
  | ui_state (d : Dict)
  | ui_pop
  | menu (d : Dict) (items : List Dict)
  | update_menu (d : Dict) (items : Option (List Dict))
  | update_menu_items (chunk_start : Nat) (items : List Dict)
  | close_menu
  | close_all_menus
  | other

/-- Positional chunk merge of `update_menu_items`: overwrite in place while
the index is in range, append past the end. -/
def mergeMenuItems (cur : List Dict) (chunk_start : Nat) : List Dict → List Dict
  | [] => cur
  | item :: rest =>
    if chunk_start < cur.length then
      mergeMenuItems (cur.set chunk_start item) (chunk_start + 1) rest
    else
      mergeMenuItems (cur ++ [item]) (chunk_start + 1) rest

/-- `UIHandler._handle_menu_msg`. -/
def handle_menu_msg (s : GameState) (m : Msg) : GameState :=
  match m with
  | .menu d items => { s with current_menu := some d, menu_items := items }
  | .update_menu d items =>
    match s.current_menu with
    | some cur =>
      let s1 := { s with current_menu := some (dictUpdate cur d) }
      match items with
      | some its => { s1 with menu_items := its }
      | none => s1
    | none => s
  | .update_menu_items chunk_start items =>
    { s with menu_items := mergeMenuItems s.menu_items chunk_start items }
  | _ => s

/-- `UIHandler._handle_ui_msg`. -/
def handle_ui_msg (s : GameState) (m : Msg) : GameState :=
  match m with
  | .ui_push d => { s with current_popup := some d }
  | .ui_state d =>
    match s.current_popup with
    | some cur => { s with current_popup := some (dictUpdate cur d) }
    | none => s
  | _ => s

/-- `DCSSGame._process_msg`: route `player`/`map`/`msgs` diffs to the
mirror, ignore everything else. -/
def process_msg (s : GameState) (m : Msg) : GameState :=
  match m with
  | .mplayer pm => update_player s pm
  | .mmap cells => update_map s cells
  | .mmsgs texts => update_messages s texts
  | _ => s

/-- Python `str()` of the scalar payload values, as interpolated into
error strings. -/
def valueStr : Value → String
  | .vStr s => s
  | .vInt n => toString n
  | .vBool b => if b then "True" else "False"
  | .vNull => "None"

/-- The narration-cadence rejection string of `_act`. -/
def narrateErr (n : Int) : String :=
  "[ERROR: You must call narrate() before continuing. You've taken " ++ toString n ++
    " actions without narrating for stream viewers.]"

/-- The stat-increase rejection string of `_act`. -/
def statIncErr : String :=
  "[ERROR: Stat increase prompt is waiting! Call choose_stat('s'), choose_stat('i'), or choose_stat('d') to pick Strength, Intelligence, or Dexterity.]"

/-- The generic pending-prompt rejection string of `_act`. -/
def pendingErr (p : String) : String :=
  "[ERROR: A prompt is pending: " ++ p ++ "]"

/-- The open-menu rejection string of `_act`. -/
def menuErr (title : String) : String :=
  "[ERROR: " ++ title ++
    " is still open. Use read_ui() to see it, select_menu_item() to interact, or dismiss() to close it first.]"

/-- The open-popup rejection string of `_act`. -/
def popupErr : String :=
  "[ERROR: A popup is still open. Use read_ui() to see it or dismiss() to close it first.]"

/-- The hint appended when a returned message mentions an unknown command. -/
def hintStr : String :=
  "[HINT: 'Unknown command' means a key you sent was invalid in this context. Check if you're sending the right arguments.]"

/-- Running state of the polling loop in `_act`: mirror state, the
`got_input`/`got_player` flags, and every key sent so far (the dispatched
keys followed by any in-loop responses). -/
structure LoopSt where
  s : GameState
  gotInput : Bool
  gotPlayer : Bool
  sends : List String

/-- The per-message body of the polling loop in `_act`: route the message
through `_process_msg`, then handle the input-mode/UI/menu/death cases. -/
def handleLoopMsg (st : LoopSt) (m : Msg) : LoopSt :=
  let s := process_msg st.s m
  match m with
  | .input_mode mode =>
    if mode = 1 then { st with s := s, gotInput := true }
    else if mode = 5 then { st with s := s, sends := st.sends ++ [" "] }
    else if mode = 7 then
      let recent := lastN 5 s.messages
      if recent.any (fun mm => containsStr mm "(S)trength") then
        { st with s := { s with pending_prompt := some "stat_increase" }, gotInput := true }
      else { st with s := s, sends := st.sends ++ ["key_esc"] }
    else if mode = 0 then { st with s := s }
    else if mode = 4 then { st with s := s, gotInput := true }
    else { st with s := s, sends := st.sends ++ ["key_esc"] }
  | .mplayer _ => { st with s := s, gotPlayer := true }
  | .close =>
    { st with s := { s with is_dead := true, in_game := false, deaths := s.deaths + 1 } }
  | .ui_push _ => { st with s := handle_ui_msg s m, gotInput := true }
  | .ui_state _ => { st with s := handle_ui_msg s m, gotInput := true }
  | .ui_pop => { st with s := { s with current_popup := none } }
  | .menu _ _ => { st with s := handle_menu_msg s m, gotInput := true }
  | .update_menu _ _ => { st with s := handle_menu_msg s m, gotInput := true }
  | .update_menu_items _ _ => { st with s := handle_menu_msg s m, gotInput := true }
  | .close_menu => { st with s := { s with current_menu := none, menu_items := [] } }
  | .close_all_menus => { st with s := { s with current_menu := none, menu_items := [] } }
  | _ => { st with s := s }

/-- The polling loop of `_act` over the successive `recv_messages` results
until the deadline (script exhaustion).  The returned flag records a break
with `got_input` but not `got_player`, after which `_act` performs one
extra short drain. -/
def actLoop (st : LoopSt) : List (List Msg) → LoopSt × Bool
  | [] => (st, false)
  | r :: rest =>
    if st.s.is_dead = true then (st, false)
    else
      let st1 := r.foldl handleLoopMsg st
      if st1.gotInput = true ∧ st1.gotPlayer = true then (st1, false)
      else if st1.gotInput = true then (st1, true)
      else actLoop st1 rest

/-- One message of the recovery drain in `_act`: routed through
`_process_msg`, with phantom popup/menu clearing. -/
def recoveryStep (s : GameState) (m : Msg) : GameState :=
  let s1 := process_msg s m
  match m with
  | .ui_pop => { s1 with current_popup := none }
  | .close_menu => { s1 with current_menu := none, menu_items := [] }
  | .close_all_menus => { s1 with current_menu := none, menu_items := [] }
  | _ => s1

/-- The bounded recovery drain of `_act`: at most five rounds, stopping at
the first empty one. -/
def recoveryLoop (s : GameState) : List (List Msg) → Nat → GameState
  | _, 0 => s
  | [], _ + 1 => s
  | r :: rest, n + 1 =>
    match r with
    | [] => s
    | _ => recoveryLoop (r.foldl recoveryStep s) rest n

/-- The server side of one `_act` call: the stray messages drained before
sending, the polling rounds, the post-ready extra drain, and the recovery
rounds (consumed only when recovery runs). -/
structure ActScript where
  leftover : List Msg := []
  rounds : List (List Msg) := []
  extra : List Msg := []
  recovery : List (List Msg) := []

/-- Everything one `_act` call produces: the returned message-string list,
the final mirror state, every key sent on the socket, the final
`got_input`/`got_player` flags, and how many times the recovery sequence
ran. -/
structure ActResult where
  out : List String
  state : GameState
  sends : List String
  gotInput : Bool
  gotPlayer : Bool
  recoveryRuns : Nat

/-- The timeout/recovery tail of `_act`: on an exchange that saw neither
ready nor death, bump the consecutive-timeout counter and, at three, send
the recovery escapes plus redraw request, drain, and reset the counter;
any other exchange resets the counter.  Returns the state, the full send
list and how many times recovery ran. -/
def actTail (lst : LoopSt) (sc : ActScript) : GameState × List String × Nat :=
  if lst.gotInput = false ∧ lst.s.is_dead = false then
    let ct := lst.s.consecutive_timeouts + 1
    if ct ≥ 3 then
      let s3 := recoveryLoop lst.s sc.recovery 5
      ({ s3 with consecutive_timeouts := 0 },
       lst.sends ++ ["key_esc", "key_esc", "key_esc", "key_ctrl_r"], 1)
    else ({ lst.s with consecutive_timeouts := ct }, lst.sends, 0)
  else ({ lst.s with consecutive_timeouts := 0 }, lst.sends, 0)

/-- The polling phase of `_act`: drain strays, send the keys, poll the
rounds, and perform the extra short drain after a break with `got_input`
only. -/
def actLst (s1 : GameState) (keys : List String) (sc : ActScript) : LoopSt :=
  let s2 := sc.leftover.foldl process_msg s1
  let lp := actLoop ⟨s2, false, false, keys⟩ sc.rounds
  if lp.2 = true then { lp.1 with s := sc.extra.foldl process_msg lp.1.s }
  else lp.1

/-- The exchange phase of `_act`, after all the early rejection guards:
poll, run the timeout/recovery tail and collect the newly observed
messages. -/
def actExchange (s1 : GameState) (keys : List String) (sc : ActScript) : ActResult :=
  let msg_start := s1.messages.length
  let lst := actLst s1 keys sc
  let tail := actTail lst sc
  let new_msgs := tail.1.messages.drop msg_start
  let out := if new_msgs.any (fun m => containsStr m "Unknown command")
    then new_msgs ++ [hintStr] else new_msgs
  ⟨out, tail.1, tail.2.1, lst.gotInput, lst.gotPlayer, tail.2.2⟩

/-- `DCSSGame._act`: the early in-band rejections (not in game, narration
overdue, pending prompt, open menu, open popup) followed by the exchange.
`narrate_interval` is the environment-configured cadence. -/
def act (s0 : GameState) (keys : List String) (menu_ok : Bool)
    (narrate_interval : Int) (sc : ActScript) : ActResult :=
  if s0.ws = false ∨ s0.in_game = false then
    ⟨["Not in game"], s0, [], false, false, 0⟩
  else if narrate_interval > 0 ∧ menu_ok = false ∧
      s0.actions_since_narrate ≥ narrate_interval then
    ⟨[narrateErr s0.actions_since_narrate], s0, [], false, false, 0⟩
  else
    let s1 := if menu_ok = false then
        { s0 with actions_since_narrate := s0.actions_since_narrate + 1 }
      else s0
    if menu_ok = false ∧ s1.pending_prompt.isSome then
      let p := s1.pending_prompt.getD ""
      if p = "stat_increase" then ⟨[statIncErr], s1, [], false, false, 0⟩
      else ⟨[pendingErr p], s1, [], false, false, 0⟩
    else if menu_ok = false ∧ s1.current_menu.isSome then
      let t := valueStr (((s1.current_menu.getD emptyDict) "title").getD (.vStr "a menu"))
      ⟨[menuErr t], s1, [], false, false, 0⟩
    else if menu_ok = false ∧ s1.current_popup.isSome then
      ⟨[popupErr], s1, [], false, false, 0⟩
    else actExchange s1 keys sc

/-- Python `str.upper()` on the letter arguments (ASCII). -/
def strUpper (s : String) : String := ⟨s.toList.map Char.toUpper⟩

/-- The invalid-letter rejection string of `choose_stat`. -/
def invalidStatErr : String :=
  "[ERROR: Invalid stat. Use 'S' (Strength), 'I' (Intelligence), or 'D' (Dexterity).]"

/-- `GameActions.choose_stat`: validate the letter, require the latched
stat prompt, clear it, then dispatch the letter as menu traffic. -/
def choose_stat (s : GameState) (stat : String) (narrate_interval : Int)
    (sc : ActScript) : ActResult :=
  let statU := strUpper stat
  if statU ≠ "S" ∧ statU ≠ "I" ∧ statU ≠ "D" then
    ⟨[invalidStatErr], s, [], false, false, 0⟩
  else if s.pending_prompt ≠ some "stat_increase" then
    ⟨["[No stat increase prompt pending.]"], s, [], false, false, 0⟩
  else act { s with pending_prompt := none } [statU] true narrate_interval sc

/-- Whether a startup message is the new-game character-creation prompt. -/
def isNewgameChoice (m : Msg) : Bool :=
  match m with
  | .ui_state d => d "type" = some (.vStr "newgame-choice")
  | _ => false

/-- The trailing startup drain of `start_game`: at most five rounds of
`recv_messages`, each applied through `_process_msg`, stopping at the
first empty round. -/
def drainLoop (s : GameState) : List (List Msg) → Nat → GameState
  | _, 0 => s
  | [], _ + 1 => s
  | r :: rest, n + 1 =>
    let s1 := r.foldl process_msg s
    match r with
    | [] => s1
    | _ => drainLoop s1 rest n

/-- The server side of one `start_game` call: the messages returned by the
first `ws.start_game` exchange, those of the retry after a stale-save
abandon, and the trailing drain rounds. -/
structure StartScript where
  startup1 : List Msg := []
  startup2 : List Msg := []
  drains : List (List Msg) := []

/-- `DCSSGame.start_game` as a state transition (`none` models a raised
exception: use before connect, or an empty game list with no explicit id).
The network exchanges (`ws.start_game`, `quit_game`, the discarded
post-abandon drain) are given by the script; the returned text is
`get_state_text` of the final state and is not modelled. -/
def start_game (s0 : GameState) (game_id : String) (sc : StartScript) :
    Option GameState :=
  if s0.session_ended = true then some s0
  else if s0.connected = false ∨ s0.ws = false then none
  else
    let s := if s0.in_game = true then { s0 with in_game := false } else s0
    if game_id = "" ∧ s.game_ids = [] then none
    else
      let had_newgame := sc.startup1.any isNewgameChoice
      let s2 := if had_newgame = false then
          { s with in_game := false, attempt := s.attempt + 1 }
        else s
      let startup := if had_newgame = false then sc.startup2 else sc.startup1
      let s3 := startup.foldl process_msg s2
      let s4 := { s3 with in_game := true, is_dead := false, messages := [] }
      some (drainLoop s4 sc.drains 5)

/-- One WebSocket frame for the `recv_messages` timing model: its arrival
time and the message list `_decode` yields for it (possibly empty —
decode failures are swallowed).  Times are in milliseconds, so the 0.01 s
floor of the socket read is 10. -/
structure WFrame where
  arrival : Int
  msgs : List Nat

/-- The zero-timeout follow-up drain of `recv_messages`: consume every
already-arrived frame. -/
def drainZero (clock : Int) : List WFrame → List Nat → List Nat × List WFrame
  | [], acc => (acc, [])
  | f :: rest, acc =>
    if f.arrival ≤ clock then drainZero clock rest (acc ++ f.msgs)
    else (acc, f :: rest)

/-- The read loop of `WebTilesConnection.recv_messages`.  A socket read
with timeout `t` returns the next frame when it arrives within `t`
(advancing the clock to its arrival) and times out otherwise (advancing
the clock by `t`); the effective timeout has the 10 ms floor of
`max(0.01, remaining)`. -/
def recvLoop (deadline : Int) (frames : List WFrame) (clock : Int)
    (result : List Nat) : List Nat × Int × List WFrame :=
  let remaining := deadline - clock
  if remaining ≤ 0 ∧ result ≠ [] then (result, clock, frames)
  else
    match frames with
    | [] => (result, clock + max 10 remaining, [])
    | f :: rest =>
      if f.arrival ≤ clock + max 10 remaining then
        let clock1 := max clock f.arrival
        let result1 := result ++ f.msgs
        match f.msgs with
        | [] => recvLoop deadline rest clock1 result1
        | _ =>
          let dz := drainZero clock1 rest result1
          (dz.1, clock1, dz.2)
      else (result, clock + max 10 remaining, frames)

/-- `WebTilesConnection.recv_messages(timeout)` starting at `clock` with
the background queue already holding `queue`: returns the collected
messages, the finishing time, and the frames left unread. -/
def recv_messages (clock tmo : Int) (queue : List Nat) (frames : List WFrame) :
    List Nat × Int × List WFrame :=
  recvLoop (clock + tmo) frames clock queue

/-- One entry of `get_nearby_enemies()` as `auto_play` reads it
(`e.get("threat", "trivial")` is the stored default). -/
structure Enemy where
  name : String := ""
  direction : String := ""
  distance : Int := 0
  threat : String := "trivial"

/-- The bad-status set of `auto_play.check_status_effects`. -/
def BAD_STATUSES : List String := ["Conf", "Para", "Petr", "Slow", "Berserk", "Mesm"]

/-- `auto_play.check_status_effects`: reads the dynamic attribute
`_status` through `hasattr`; since nothing in the repository ever assigns
`_status`, the attribute is absent (`statusDyn = none`) on every reachable
state and the filter body is never reached. -/
def check_status_effects (s : GameState) : List String :=
  match s.statusDyn with
  | none => []
  | some l => l.filter (fun x => BAD_STATUSES.contains x)

/-- `auto_play.check_hp`: HP percentage strictly below the threshold.  The
float comparison `hp / max_hp * 100 < threshold` is modelled exactly over
the integers as `hp * 100 < threshold * max_hp` (for positive `max_hp`). -/
def check_hp (s : GameState) (hp_threshold : Int) : Bool :=
  if s.max_hp ≤ 0 then false else decide (s.hp * 100 < hp_threshold * s.max_hp)

/-- `auto_play.check_dangerous_enemies`. -/
def check_dangerous_enemies (enemies : List Enemy) : List Enemy :=
  enemies.filter fun e => e.threat = "dangerous" ∨ e.threat = "extremely dangerous"

/-- The outcome of the pre-action checks at the top of each `auto_play`
iteration. -/
inductive StopCheck where
  | proceed
  | noProgressStop
  | dangerStop (reason : String)
  | hpStop (reason : String)
  | statusStop (effects : List String)
  | xlStop (xl : Int)
deriving DecidableEq

/-- The enemy description interpolated into the dangerous-enemy stop
reason. -/
def enemyDescr (e : Enemy) : String :=
  e.name ++ " (" ++ e.direction ++ ", dist " ++ toString e.distance ++ ")"

/-- The `stop_reason` string each pre-action outcome sets (`none` when the
iteration proceeds). -/
def stopReasonStr : StopCheck → Option String
  | .proceed => none
  | .noProgressStop => some "no progress (turn not advancing)"
  | .dangerStop r => some r
  | .hpStop r => some r
  | .statusStop effects => some ("status effect: " ++ String.intercalate ", " effects)
  | .xlStop xl => some ("leveled up to XL " ++ toString xl)

/-- The pre-action check block of one `auto_play` iteration, in source
order: no-progress detection, dangerous enemies, low HP, bad status
effects, XL gain.  Returns the outcome and the updated
`no_progress_count`. -/
def preActionCheck (s : GameState) (enemies : List Enemy) (actions : Nat)
    (no_progress_count : Nat) (hp_threshold : Int) (xl_start : Int) :
    StopCheck × Nat :=
  let inNoProg := actions > 0 ∧ s.turn = s.lastAutoPlayTurn.getD (-1)
  let np := if inNoProg then no_progress_count + 1 else 0
  if inNoProg ∧ np ≥ 5 then (.noProgressStop, np)
  else
    let dangerous := check_dangerous_enemies enemies
    match dangerous with
    | _ :: _ =>
      (.dangerStop ("dangerous enemy spotted: " ++
        String.intercalate ", " (dangerous.map enemyDescr)), np)
    | [] =>
      if check_hp s hp_threshold then
        (.hpStop ("HP low (" ++ toString s.hp ++ "/" ++ toString s.max_hp ++ ", " ++
          toString (s.hp * 100 / s.max_hp) ++ "%)"), np)
      else
        match check_status_effects s with
        | b :: bs => (.statusStop (b :: bs), np)
        | [] =>
          if s.xl > xl_start then (.xlStop s.xl, np) else (.proceed, np)

/-- The cursor value after absorbing the explicit `x`/`y` keys of a list
of cells. -/
def cursorAfter (cur : Option Int × Option Int) (cells : List Cell) :
    Option Int × Option Int :=
  cells.foldl absorbCell cur

/-- Whether a batch walked from `cur` never completes the cursor: every
cell still lacks an `x` or a `y` after absorbing its explicit keys. -/
def neverAnchored (cur : Option Int × Option Int) : List Cell → Bool
  | [] => true
  | c :: rest =>
    let cur1 := absorbCell cur c
    (cur1.1.isNone || cur1.2.isNone) && neverAnchored cur1 rest

/-- One resolved cell applied to the mirror. -/
def stepCell (s : GameState) (pc : Pos × Cell) : GameState :=
  applyCellPayload s pc.1 pc.2

/-- The cells of a batch paired with the coordinates the cursor walk
resolves them to, dropping the cells processed before both coordinates are
known.  This resolution depends only on the batch, never on the mirror
state. -/
def resolveCells (cur : Option Int × Option Int) : List Cell → List (Pos × Cell)
  | [] => []
  | c :: rest =>
    match absorbCell cur c with
    | (some x, some y) => ((x, y), c) :: resolveCells (some (x + 1), some y) rest
    | cur1 => resolveCells cur1 rest

/-- The monster entries of the resolved cells at one coordinate, in batch
order (cells without a `mon` key dropped). -/
def monActsAt (p : Pos) (L : List (Pos × Cell)) : List MonField :=
  L.filterMap fun pc =>
    if pc.1 = p then
      match pc.2.mon with
      | .absent => none
      | .falsy => some .falsy
      | .mons m => some (.mons m)
    else none

/-- Whether a cell's monster sub-object (when present) carries a `name`
field. -/
def monNameOkCell (c : Cell) : Bool :=
  match c.mon with
  | .mons m => (m "name").isSome
  | _ => true

/-- Whether every monster sub-object of a batch carries a `name` field. -/
def monNamesOk (cells : List Cell) : Bool :=
  cells.all monNameOkCell

/-- Last-write-wins evaluation of a sequence of stored values over an
initial one. -/
def lastWrite {α : Type} (w : List (Option α)) (v : Option α) : Option α :=
  w.foldl (fun _ x => x) v

/-- Last-set-wins evaluation of a sequence of set values over an initial
optional one. -/
def lastSet {α : Type} (w : List α) (v : Option α) : Option α :=
  w.foldl (fun _ x => some x) v

/-- The glyph writes a resolved batch performs at one coordinate. -/
def gWrites (q : Pos) (L : List (Pos × Cell)) : List String :=
  L.filterMap fun pc => if pc.1 = q then pc.2.g else none

/-- The feature writes a resolved batch performs at one coordinate. -/
def fWrites (q : Pos) (L : List (Pos × Cell)) : List Int :=
  L.filterMap fun pc => if pc.1 = q then pc.2.f else none

/-- The packed foreground value stored for a cell's `fg` entry. -/
def fgVal : FgField → Nat
  | .fgOne n => n
  | .fgPair lo hi => (hi <<< 32) ||| (lo &&& 0xFFFFFFFF)

/-- The foreground writes a resolved batch performs at one coordinate. -/
def fgWrites (q : Pos) (L : List (Pos × Cell)) : List Nat :=
  L.filterMap fun pc => if pc.1 = q then pc.2.fg.map fgVal else none

/-- The overlay table value one cell stores at its coordinate (`none` both
for the delete and for the untouched-absent case, which coincide
pointwise). -/
def ovVal (c : Cell) : Option (List (String × Value)) :=
  match extractOverlays c with
  | [] => none
  | l => some l

/-- The overlay writes a resolved batch performs at one coordinate (every
resolved cell writes). -/
def ovWrites (q : Pos) (L : List (Pos × Cell)) :
    List (Option (List (String × Value))) :=
  L.filterMap fun pc => if pc.1 = q then some (ovVal pc.2) else none

/-- The name-cache write one cell performs, when its monster sub-object
has both a `name` and a non-null `id`. -/
def nameWrite (c : Cell) : Option (Value × Value) :=
  match c.mon with
  | .mons m =>
    match m "name", monId m with
    | some nm, some i => some (i, nm)
    | _, _ => none
  | _ => none

/-- The name-cache writes a resolved batch performs at one id. -/
def nameWrites (j : Value) (L : List (Pos × Cell)) : List Value :=
  L.filterMap fun pc =>
    match nameWrite pc.2 with
    | some (i, nm) => if i = j then some nm else none
    | none => none

/-- The name-cache effect of one resolved cell. -/
def nameFoldF (N : Value → Option Value) (pc : Pos × Cell) : Value → Option Value :=
  match nameWrite pc.2 with
  | some inm => fset N inm.1 (some inm.2)
  | none => N

/-- The effect of one monster entry on a monster-table value, in the
name-complete case where the cached-name injection cannot fire. -/
def monApply1 (a : MonField) (v : Option Dict) : Option Dict :=
  match a with
  | .absent => v
  | .falsy => none
  | .mons m => some (dictUpdate (v.getD emptyDict) m)

/-- Sequential application of monster entries to a monster-table value. -/
def chainM (acts : List MonField) (v : Option Dict) : Option Dict :=
  acts.foldl (fun v a => monApply1 a v) v

/-- Whether a monster entry deletes. -/
def isDelAct : MonField → Bool
  | .falsy => true
  | _ => false

/-- The values a sequence of monster entries writes to one dict key. -/
def keyWrites (k : String) (acts : List MonField) : List Value :=
  acts.filterMap fun a =>
    match a with
    | .mons m => m k
    | _ => none

/-- Whether a message is one of the three diff kinds `_process_msg`
applies to the mirror. -/
def isDiffMsg : Msg → Bool
  | .mplayer _ => true
  | .mmap _ => true
  | .mmsgs _ => true
  | _ => false

/-- A connected, in-game mirror state. -/
def connectedState : GameState :=
  { initState with ws := true, in_game := true, connected := true }

/-- A connected, in-game state already at two consecutive timeouts. -/
def cexTimeoutState : GameState :=
  { connectedState with consecutive_timeouts := 2 }

/-- A mirror state with monsters already present at the two coordinates a
counterexample batch mentions. -/
def cexMapState : GameState :=
  { initState with
    monsters := fun p =>
      if p = ((0 : Int), (0 : Int)) then some (dictOf [("name", .vStr "bat")])
      else if p = ((1 : Int), (0 : Int)) then
        some (dictOf [("name", .vStr "rat"), ("threat", .vInt 9)])
      else none }

/-- A batch mentioning `(0,0)` with a glyph only and `(1,0)` (by cursor
advance) with a monster lacking a `threat` field. -/
def cexMonBatch : List Cell :=
  [{ x := some 0, y := some 0, g := some "." },
   { mon := .mons (dictOf [("id", .vInt 5), ("name", .vStr "orc")]) }]

/-- A batch whose first monster entry lacks a name while its second entry
caches one for the same id. -/
def cexIdemBatch : List Cell :=
  [{ x := some 0, y := some 0, mon := .mons (dictOf [("id", .vInt 5)]) },
   { mon := .mons (dictOf [("id", .vInt 5), ("name", .vStr "orc")]) }]

/-- A connected, not-in-game state carrying leftovers of a previous game:
a monster, a map cell, an inventory item and nonzero HP. -/
def cexStartState : GameState :=
  { initState with
    connected := true
    ws := true
    game_ids := ["dcss-web-trunk"]
    hp := 13
    monsters := fset initState.monsters ((2 : Int), (2 : Int))
      (some (dictOf [("name", .vStr "orc")]))
    map_cells := fset initState.map_cells ((2 : Int), (2 : Int)) (some "#")
    inventory := fset initState.inventory 3
      (some (dictOf [("name", .vStr "a long sword")])) }

/-- A startup script whose first exchange shows the new-game choice
prompt and whose traffic carries no player/map/message diffs. -/
def cexStartScript : StartScript :=
  { startup1 := [.ui_state (dictOf [("type", .vStr "newgame-choice")])] }

/-- A full-health, enemy-free state whose `_status_effects` mirror holds
an active confusion light. -/
def cexStatusState : GameState :=
  { initState with
    hp := 10
    max_hp := 10
    turn := 5
    status_effects :=
      [{ light := some (.vStr "Conf"), text := some (.vStr "Conf"),
         desc := some (.vStr "confused") }] }

theorem foldl_applyInvEntry_untouched (entries : List (Int × Option Dict))
    (inv : Int → Option Dict) (slot : Int) (h : ∀ e ∈ entries, e.1 ≠ slot) :
    (entries.foldl applyInvEntry inv) slot = inv slot := by
  induction entries generalizing inv with
  | nil => rfl
  | cons e rest ih =>
    have h1 : e.1 ≠ slot := h e (List.mem_cons_self e rest)
    rw [List.foldl_cons, ih _ (fun x hx => h x (List.mem_cons_of_mem e hx))]
    have h2 : ¬ slot = e.1 := fun hs => h1 hs.symm
    cases hv : e.2 <;> simp [applyInvEntry, hv, fset, h2]

/-- Claim C9: applying a player diff changes only the fields whose keys
are present in it — every `field_map` field, the position, the inventory
(as a whole and per slot) and the status-effect set keep exactly their
previous value when their key is absent from the diff. -/
theorem c9_player_diff_frame (s : GameState) (pm : PlayerMsg) :
    (pm.hp = none → (update_player s pm).hp = s.hp) ∧
    (pm.hp_max = none → (update_player s pm).max_hp = s.max_hp) ∧
    (pm.mp = none → (update_player s pm).mp = s.mp) ∧
    (pm.mp_max = none → (update_player s pm).max_mp = s.max_mp) ∧
    (pm.ac = none → (update_player s pm).ac = s.ac) ∧
    (pm.ev = none → (update_player s pm).ev = s.ev) ∧
    (pm.sh = none → (update_player s pm).sh = s.sh) ∧
    (pm.str = none → (update_player s pm).str = s.str) ∧
    (pm.int = none → (update_player s pm).int = s.int) ∧
    (pm.dex = none → (update_player s pm).dex = s.dex) ∧
    (pm.xl = none → (update_player s pm).xl = s.xl) ∧
    (pm.place = none → (update_player s pm).place = s.place) ∧
    (pm.depth = none → (update_player s pm).depth = s.depth) ∧
    (pm.god = none → (update_player s pm).god = s.god) ∧
    (pm.gold = none → (update_player s pm).gold = s.gold) ∧
    (pm.turn = none → (update_player s pm).turn = s.turn) ∧
    (pm.species = none → (update_player s pm).species = s.species) ∧
    (pm.title = none → (update_player s pm).title = s.title) ∧
    (pm.poison_survival = none →
      (update_player s pm).poison_survival = s.poison_survival) ∧
    (pm.real_hp_max = none → (update_player s pm).real_hp_max = s.real_hp_max) ∧
    (pm.piety_rank = none → (update_player s pm).piety_rank = s.piety_rank) ∧
    (pm.penance = none → (update_player s pm).penance = s.penance) ∧
    (pm.contam = none → (update_player s pm).contam = s.contam) ∧
    (pm.adjusted_noise = none →
      (update_player s pm).adjusted_noise = s.adjusted_noise) ∧
    (pm.form = none → (update_player s pm).form = s.form) ∧
    (pm.quiver_desc = none → (update_player s pm).quiver_desc = s.quiver_desc) ∧
    (pm.time = none → (update_player s pm).elapsed_time = s.elapsed_time) ∧
    (pm.progress = none → (update_player s pm).xl_progress = s.xl_progress) ∧
    (pm.weapon_index = none →
      (update_player s pm).weapon_index = s.weapon_index) ∧
    (pm.offhand_index = none →
      (update_player s pm).offhand_index = s.offhand_index) ∧
    (pm.ac_mod = none → (update_player s pm).ac_mod = s.ac_mod) ∧
    (pm.ev_mod = none → (update_player s pm).ev_mod = s.ev_mod) ∧
    (pm.sh_mod = none → (update_player s pm).sh_mod = s.sh_mod) ∧
    (pm.doom = none → (update_player s pm).doom = s.doom) ∧
    (pm.lives = none → (update_player s pm).lives = s.lives) ∧
    (pm.deaths = none → (update_player s pm).deaths = s.deaths) ∧
    (pm.pos = none → (update_player s pm).position = s.position) ∧
    (pm.inv = none → (update_player s pm).inventory = s.inventory) ∧
    (∀ entries slot, pm.inv = some entries → (∀ e ∈ entries, e.1 ≠ slot) →
      (update_player s pm).inventory slot = s.inventory slot) ∧
    (pm.status = none → (update_player s pm).status_effects = s.status_effects) := by
  refine ⟨?_, ?_, ?_, ?_, ?_, ?_, ?_, ?_, ?_, ?_, ?_, ?_, ?_, ?_, ?_, ?_, ?_,
    ?_, ?_, ?_, ?_, ?_, ?_, ?_, ?_, ?_, ?_, ?_, ?_, ?_, ?_, ?_, ?_, ?_, ?_,
    ?_, ?_, ?_, ?inv, ?_⟩
  case inv =>
    intro entries slot hinv hall
    simp only [update_player, hinv]
    exact foldl_applyInvEntry_untouched entries s.inventory slot hall
  all_goals intro h; simp [update_player, h]

/-- Witness for C9 at the empty diff on the freshly initialised state. -/
theorem c9_witness :
    ({} : PlayerMsg).hp = none ∧ (update_player initState {}).hp = initState.hp :=
  ⟨rfl, (c9_player_diff_frame initState {}).1 rfl⟩

theorem applyCells_skip (cells : List Cell) :
    ∀ cur s, neverAnchored cur cells = true → applyCells s cur cells = s := by
  induction cells with
  | nil => intro cur s _; rfl
  | cons c rest ih =>
    intro cur s h
    rcases habs : absorbCell cur c with ⟨_ | x, _ | y⟩ <;>
      simp only [neverAnchored, habs, Option.isNone_none, Option.isNone_some,
        Bool.true_or, Bool.or_true, Bool.or_self, Bool.true_and,
        Bool.false_and] at h <;>
      first
        | exact absurd h Bool.false_ne_true
        | (simp only [applyCells, habs]; exact ih _ s h)

theorem applyCells_anchor (pre : List Cell) :
    ∀ cur (c : Cell) rest s x y, neverAnchored cur pre = true →
      absorbCell (cursorAfter cur pre) c = (some x, some y) →
      applyCells s cur (pre ++ c :: rest) =
        applyCells (applyCellPayload s (x, y) c) (some (x + 1), some y) rest := by
  induction pre with
  | nil =>
    intro cur c rest s x y _ habs
    simp only [List.nil_append, applyCells, cursorAfter, List.foldl_nil] at habs ⊢
    simp only [habs]
  | cons p ps ih =>
    intro cur c rest s x y h habs
    rcases hp : absorbCell cur p with ⟨_ | x0, _ | y0⟩ <;>
      simp only [neverAnchored, hp, Option.isNone_none, Option.isNone_some,
        Bool.true_or, Bool.or_true, Bool.or_self, Bool.true_and,
        Bool.false_and] at h <;>
      first
        | exact absurd h Bool.false_ne_true
        | (simp only [List.cons_append, applyCells, hp]
           exact ih _ c rest s x y h (by
             simpa only [cursorAfter, List.foldl_cons, hp] using habs))

/-- Claim C10: cells of a map-diff batch processed before both
coordinates are established write nothing at all (a batch that never
anchors leaves the mirror untouched), and the first cell completing both
coordinates anchors the cursor there for the cells that follow. -/
theorem c10_cursor_anchor :
    (∀ cells s, neverAnchored (none, none) cells = true → update_map s cells = s) ∧
    (∀ pre (c : Cell) rest s x y, neverAnchored (none, none) pre = true →
      absorbCell (cursorAfter (none, none) pre) c = (some x, some y) →
      update_map s (pre ++ c :: rest) =
        applyCells (applyCellPayload s (x, y) c) (some (x + 1), some y) rest) := by
  constructor
  · intro cells s h
    match cells with
    | [] => rfl
    | c :: rest => exact applyCells_skip (c :: rest) (none, none) s h
  · intro pre c rest s x y h habs
    have hne : update_map s (pre ++ c :: rest) =
        applyCells s (none, none) (pre ++ c :: rest) := by
      cases pre <;> rfl
    rw [hne]
    exact applyCells_anchor pre (none, none) c rest s x y h habs

/-- Witness for C10: a cell carrying only an `x` is skipped, and the next
cell, which completes the coordinates, anchors the cursor at `(3, 4)`. -/
theorem c10_witness :
    neverAnchored (none, none) [{ x := some 3 }] = true ∧
    update_map initState [{ x := some 3 }, { y := some 4, g := some "#" }] =
      applyCells
        (applyCellPayload initState ((3 : Int), (4 : Int))
          { y := some 4, g := some "#" })
        (some 4, some 4) [] :=
  ⟨rfl, c10_cursor_anchor.2 [{ x := some 3 }] { y := some 4, g := some "#" }
    [] initState 3 4 rfl rfl⟩

/-- Claim C8 (against the code as written): the status-effect stop can
never fire.  `check_status_effects` reads the dynamic attribute `_status`,
which nothing in the repository assigns (the populated mirror field is
`_status_effects`), so on every reachable state (`statusDyn = none`) the
pre-action check of an `auto_play` iteration never stops with a
status-effect reason; player diffs maintain the absence; and concretely, a
full-health, enemy-free iteration with an active `Conf` light proceeds
instead of stopping. -/
theorem c8_status_stop_unreachable :
    (∀ (s : GameState) enemies actions np thr xls (l : List String),
      s.statusDyn = none →
      (preActionCheck s enemies actions np thr xls).1 ≠ .statusStop l) ∧
    (∀ (s : GameState) pm, (update_player s pm).statusDyn = s.statusDyn) ∧
    preActionCheck cexStatusState [] 0 0 50 1 = (.proceed, 0) := by
  refine ⟨?_, fun s pm => rfl, rfl⟩
  intro s enemies actions np thr xls l h
  simp only [preActionCheck, check_status_effects, h]
  repeat' split
  all_goals simp

/-- Witness for C8 on the concrete confused state. -/
theorem c8_witness :
    cexStatusState.statusDyn = none ∧
    (preActionCheck cexStatusState [] 0 0 50 1).1 ≠ .statusStop ["Conf"] :=
  ⟨rfl, c8_status_stop_unreachable.1 cexStatusState [] 0 0 50 1 ["Conf"] rfl⟩

theorem clock_step_le (clock deadline : Int) :
    clock + max 10 (deadline - clock) ≤ max clock deadline + 10 := by
  rcases le_total 10 (deadline - clock) with h | h
  · rw [max_eq_right h]
    have := le_max_right clock deadline
    omega
  · rw [max_eq_left h]
    have := le_max_left clock deadline
    omega

theorem recvLoop_clock_le (frames : List WFrame) :
    ∀ (deadline clock : Int) (result : List Nat),
      (recvLoop deadline frames clock result).2.1 ≤
        max clock deadline + 10 * ((frames.length : Int) + 1) := by
  induction frames with
  | nil =>
    intro deadline clock result
    rw [recvLoop]
    have h1 := le_max_left clock deadline
    have h2 := clock_step_le clock deadline
    split
    · simpa using by omega
    · simpa using by omega
  | cons f rest ih =>
    intro deadline clock result
    have h1 := le_max_left clock deadline
    have h2 := le_max_right clock deadline
    have h3 := clock_step_le clock deadline
    rw [recvLoop]
    split
    · simpa using by omega
    · split
      · -- frame within the window
        rename_i hin
        have hc1 : max clock f.arrival ≤ max clock deadline + 10 :=
          max_le (by omega) (le_trans hin h3)
        have hmax : max (max clock f.arrival) deadline ≤ max clock deadline + 10 :=
          max_le hc1 (by omega)
        split
        · -- empty decode: keep looping
          have := ih deadline (max clock f.arrival) (result ++ f.msgs)
          simp only [List.length_cons]
          push_cast
          omega
        · -- nonempty decode: zero-timeout drain, clock unchanged
          simp only [List.length_cons]
          push_cast
          omega
      · -- timeout
        simp only [List.length_cons]
        push_cast
        omega

/-- Counterexample for C7: with a zero timeout, an empty queue and no
frames, `recv_messages` still performs one floored socket read and
finishes at time 10, past the `clock + timeout` bound the claim states. -/
theorem c7_counterexample : ¬ ((recv_messages 0 0 [] []).2.1 ≤ 0 + 0) := by
  decide

/-- Claim C7 as amended: for every nonnegative timeout and every finite
frame sequence, `recv_messages` finishes by
`clock + timeout + 10 ms · (number of frames + 1)` — it terminates on
every input, but the 0.01 s read floor (and re-reading while nothing has
been decoded) can push it past the plain timeout. -/
theorem c7_recv_bounded (clock tmo : Int) (queue : List Nat)
    (frames : List WFrame) (h : 0 ≤ tmo) :
    (recv_messages clock tmo queue frames).2.1 ≤
      clock + tmo + 10 * ((frames.length : Int) + 1) := by
  have := recvLoop_clock_le frames (clock + tmo) clock queue
  rwa [max_eq_right (by omega)] at this

/-- Witness for C7 on one frame arriving within a 5 ms timeout. -/
theorem c7_witness :
    (0 : Int) ≤ 5 ∧
    (recv_messages 0 5 [] [⟨3, [1]⟩]).2.1 ≤
      0 + 5 + 10 * ((([⟨3, [1]⟩] : List WFrame).length : Int) + 1) :=
  ⟨by decide, c7_recv_bounded 0 5 [] [⟨3, [1]⟩] (by decide)⟩

theorem process_msg_nondiff (s : GameState) (m : Msg)
    (h : isDiffMsg m = false) : process_msg s m = s := by
  cases m <;> first | rfl | simp [isDiffMsg] at h

theorem foldl_process_msg_nondiff (l : List Msg)
    (h : ∀ m ∈ l, isDiffMsg m = false) :
    ∀ s : GameState, l.foldl process_msg s = s := by
  induction l with
  | nil => intro s; rfl
  | cons m rest ih =>
    intro s
    rw [List.foldl_cons, process_msg_nondiff s m (h m (List.mem_cons_self m rest))]
    exact ih (fun x hx => h x (List.mem_cons_of_mem m hx)) s

theorem drainLoop_nondiff (rounds : List (List Msg))
    (h : ∀ r ∈ rounds, ∀ m ∈ r, isDiffMsg m = false) :
    ∀ (s : GameState) (n : Nat), drainLoop s rounds n = s := by
  induction rounds with
  | nil => intro s n; cases n <;> rfl
  | cons r rest ih =>
    intro s n
    cases n with
    | zero => rfl
    | succ n =>
      have hr := foldl_process_msg_nondiff r (h r (List.mem_cons_self r rest)) s
      cases r with
      | nil => simp [drainLoop]
      | cons m ms =>
        simp only [drainLoop, hr]
        exact ih (fun x hx => h x (List.mem_cons_of_mem _ hx)) s n

/-- Claim C2 as amended: a normally returning `start_game` on the
new-game path does not clear anything except the message log — it sets
the in-game flag, clears the death latch, empties the messages, and keeps
every other field (map cells, monsters, inventory, player stats)
exactly as they were, to be overwritten only by whatever diffs the new
game's traffic carries (none in the hypotheses below). -/
theorem c2_start_game_no_reset (s : GameState) (game_id : String)
    (sc : StartScript)
    (hse : s.session_ended = false) (hc : s.connected = true)
    (hw : s.ws = true) (hig : s.in_game = false)
    (hgid : game_id ≠ "" ∨ s.game_ids ≠ [])
    (hng : sc.startup1.any isNewgameChoice = true)
    (h1 : ∀ m ∈ sc.startup1, isDiffMsg m = false)
    (h2 : ∀ r ∈ sc.drains, ∀ m ∈ r, isDiffMsg m = false) :
    start_game s game_id sc =
      some { s with in_game := true, is_dead := false, messages := [] } := by
  have hgid2 : ¬ (game_id = "" ∧ s.game_ids = []) := by
    rcases hgid with h | h <;> exact fun hand => h (by simp [hand.1, hand.2])
  simp [start_game, hse, hc, hw, hig, hgid2, hng,
    foldl_process_msg_nondiff sc.startup1 h1,
    drainLoop_nondiff sc.drains h2]

/-- Counterexample for C2: on a normally returning `start_game` (new-game
prompt present, no diffs in the startup traffic), the previous game's
monster, map cell and inventory item survive and HP keeps its old value —
nothing is cleared or zeroed. -/
theorem c2_counterexample :
    (start_game cexStartState "" cexStartScript).map
      (fun s => (s.monsters ((2 : Int), (2 : Int))).isSome) = some true ∧
    (start_game cexStartState "" cexStartScript).map
      (fun s => (s.inventory 3).isSome) = some true ∧
    (start_game cexStartState "" cexStartScript).map
      (fun s => (s.map_cells ((2 : Int), (2 : Int))).isSome) = some true ∧
    (start_game cexStartState "" cexStartScript).map
      (fun s => s.hp) = some 13 :=
  ⟨rfl, rfl, rfl, rfl⟩

/-- Witness for C2 on the concrete leftover-carrying state. -/
theorem c2_witness :
    start_game cexStartState "" cexStartScript =
      some { cexStartState with in_game := true, is_dead := false, messages := [] } :=
  c2_start_game_no_reset cexStartState "" cexStartScript rfl rfl rfl rfl
    (Or.inr (by simp [cexStartState, initState]))
    rfl (by decide) (by simp [cexStartScript])

theorem cellG_shape (s : GameState) (p : Pos) (c : Cell) :
    cellG s p c = { s with map_cells := (cellG s p c).map_cells } := by
  cases hg : c.g <;> simp [cellG, hg]

theorem cellF_shape (s : GameState) (p : Pos) (c : Cell) :
    cellF s p c = { s with cell_features := (cellF s p c).cell_features } := by
  cases hf : c.f <;> simp [cellF, hf]

theorem cellOv_shape (s : GameState) (p : Pos) (c : Cell) :
    cellOv s p c = { s with cell_overlays := (cellOv s p c).cell_overlays } := by
  simp only [cellOv]
  repeat' split
  all_goals rfl

theorem cellFg_shape (s : GameState) (p : Pos) (c : Cell) :
    cellFg s p c = { s with tile_fg := (cellFg s p c).tile_fg } := by
  simp only [cellFg]
  repeat' split
  all_goals rfl

theorem cellMon_shape (s : GameState) (p : Pos) (c : Cell) :
    cellMon s p c =
      { s with monsters := (cellMon s p c).monsters,
               monster_names := (cellMon s p c).monster_names } := by
  simp only [cellMon]
  repeat' split
  all_goals rfl

theorem applyCellPayload_stages (s : GameState) (p : Pos) (c : Cell) :
    applyCellPayload s p c =
      cellMon (cellFg (cellOv (cellF (cellG s p c) p c) p c) p c) p c := by
  rcases c with ⟨cx, cy, cg, cf, cov, cfg, cmon⟩
  cases cg <;> cases cf <;> cases cfg <;> cases cmon <;> rfl

set_option maxHeartbeats 1600000 in
theorem applyCellPayload_shape (s : GameState) (p : Pos) (c : Cell) :
    applyCellPayload s p c =
      { s with
        map_cells := (applyCellPayload s p c).map_cells,
        cell_features := (applyCellPayload s p c).cell_features,
        cell_overlays := (applyCellPayload s p c).cell_overlays,
        tile_fg := (applyCellPayload s p c).tile_fg,
        monsters := (applyCellPayload s p c).monsters,
        monster_names := (applyCellPayload s p c).monster_names } := by
  simp only [applyCellPayload]
  repeat' split
  all_goals rfl

theorem applyCells_shape (cells : List Cell) :
    ∀ cur (s : GameState), applyCells s cur cells =
      { s with
        map_cells := (applyCells s cur cells).map_cells,
        cell_features := (applyCells s cur cells).cell_features,
        cell_overlays := (applyCells s cur cells).cell_overlays,
        tile_fg := (applyCells s cur cells).tile_fg,
        monsters := (applyCells s cur cells).monsters,
        monster_names := (applyCells s cur cells).monster_names } := by
  induction cells with
  | nil => intro cur s; rfl
  | cons c rest ih =>
    intro cur s
    rcases habs : absorbCell cur c with ⟨_ | x, _ | y⟩ <;>
      simp only [applyCells, habs]
    · exact ih _ s
    · exact ih _ s
    · exact ih _ s
    · rw [applyCellPayload_shape s (x, y) c, ih]

theorem update_map_shape (s : GameState) (cells : List Cell) :
    update_map s cells =
      { s with
        map_cells := (update_map s cells).map_cells,
        cell_features := (update_map s cells).cell_features,
        cell_overlays := (update_map s cells).cell_overlays,
        tile_fg := (update_map s cells).tile_fg,
        monsters := (update_map s cells).monsters,
        monster_names := (update_map s cells).monster_names } := by
  cases cells with
  | nil => rfl
  | cons c rest => exact applyCells_shape (c :: rest) (none, none) s

theorem process_msg_flags (s : GameState) (m : Msg) :
    (process_msg s m).consecutive_timeouts = s.consecutive_timeouts ∧
    (process_msg s m).is_dead = s.is_dead := by
  cases m <;> try exact ⟨rfl, rfl⟩
  case mmap cells =>
    constructor <;> rw [show process_msg s (.mmap cells) = update_map s cells from rfl,
      update_map_shape]

theorem foldl_process_msg_flags (l : List Msg) :
    ∀ s : GameState,
      (l.foldl process_msg s).consecutive_timeouts = s.consecutive_timeouts ∧
      (l.foldl process_msg s).is_dead = s.is_dead := by
  induction l with
  | nil => intro s; exact ⟨rfl, rfl⟩
  | cons m rest ih =>
    intro s
    rw [List.foldl_cons]
    exact ⟨(ih _).1.trans (process_msg_flags s m).1,
      (ih _).2.trans (process_msg_flags s m).2⟩

theorem handle_menu_msg_flags (s : GameState) (m : Msg) :
    (handle_menu_msg s m).consecutive_timeouts = s.consecutive_timeouts ∧
    (handle_menu_msg s m).is_dead = s.is_dead := by
  cases m <;> simp only [handle_menu_msg] <;> (repeat' split) <;>
    first | exact ⟨rfl, rfl⟩ | simp

theorem handle_ui_msg_flags (s : GameState) (m : Msg) :
    (handle_ui_msg s m).consecutive_timeouts = s.consecutive_timeouts ∧
    (handle_ui_msg s m).is_dead = s.is_dead := by
  cases m <;> simp only [handle_ui_msg] <;> (repeat' split) <;>
    first | exact ⟨rfl, rfl⟩ | simp

theorem handleLoopMsg_ct (st : LoopSt) (m : Msg) :
    (handleLoopMsg st m).s.consecutive_timeouts = st.s.consecutive_timeouts := by
  cases m <;> simp only [handleLoopMsg] <;> (repeat' split) <;>
    simp [(process_msg_flags st.s _).1, (handle_menu_msg_flags _ _).1,
      (handle_ui_msg_flags _ _).1]

theorem foldl_handleLoopMsg_ct (r : List Msg) :
    ∀ st : LoopSt,
      (r.foldl handleLoopMsg st).s.consecutive_timeouts =
        st.s.consecutive_timeouts := by
  induction r with
  | nil => intro st; rfl
  | cons m rest ih =>
    intro st
    rw [List.foldl_cons]
    exact (ih _).trans (handleLoopMsg_ct st m)

theorem actLoop_ct (rounds : List (List Msg)) :
    ∀ st : LoopSt,
      (actLoop st rounds).1.s.consecutive_timeouts =
        st.s.consecutive_timeouts := by
  induction rounds with
  | nil => intro st; rfl
  | cons r rest ih =>
    intro st
    simp only [actLoop]
    repeat' split
    · rfl
    · exact foldl_handleLoopMsg_ct r st
    · exact foldl_handleLoopMsg_ct r st
    · exact (ih _).trans (foldl_handleLoopMsg_ct r st)

theorem recoveryStep_dead (s : GameState) (m : Msg) :
    (recoveryStep s m).is_dead = s.is_dead := by
  cases m <;> simp only [recoveryStep] <;>
    simp [(process_msg_flags s _).2]

theorem foldl_recoveryStep_dead (r : List Msg) :
    ∀ s : GameState, (r.foldl recoveryStep s).is_dead = s.is_dead := by
  induction r with
  | nil => intro s; rfl
  | cons m rest ih =>
    intro s
    rw [List.foldl_cons]
    exact (ih _).trans (recoveryStep_dead s m)

theorem recoveryLoop_dead (rounds : List (List Msg)) :
    ∀ (s : GameState) (n : Nat), (recoveryLoop s rounds n).is_dead = s.is_dead := by
  induction rounds with
  | nil => intro s n; cases n <;> rfl
  | cons r rest ih =>
    intro s n
    cases n with
    | zero => rfl
    | succ n =>
      cases r with
      | nil => rfl
      | cons m ms =>
        simp only [recoveryLoop]
        exact (ih _ n).trans (foldl_recoveryStep_dead (m :: ms) s)

theorem act_exchange_eq (s : GameState) (keys : List String) (ni : Int)
    (sc : ActScript) (hw : s.ws = true) (hig : s.in_game = true)
    (hn : ¬ (ni > 0 ∧ s.actions_since_narrate ≥ ni))
    (hp : s.pending_prompt = none) (hm : s.current_menu = none)
    (hpo : s.current_popup = none) :
    act s keys false ni sc =
      actExchange { s with actions_since_narrate := s.actions_since_narrate + 1 }
        keys sc := by
  simp [act, hw, hig, hn, hp, hm, hpo]

theorem actTail_spec (lst : LoopSt) (sc : ActScript) :
    (lst.gotInput = false → lst.s.is_dead = false →
      (lst.s.consecutive_timeouts + 1 ≥ 3 →
        (actTail lst sc).2.2 = 1 ∧ (actTail lst sc).1.consecutive_timeouts = 0) ∧
      (lst.s.consecutive_timeouts + 1 < 3 →
        (actTail lst sc).2.2 = 0 ∧
        (actTail lst sc).1.consecutive_timeouts =
          lst.s.consecutive_timeouts + 1)) ∧
    (lst.gotInput = true →
      (actTail lst sc).2.2 = 0 ∧ (actTail lst sc).1.consecutive_timeouts = 0) ∧
    (actTail lst sc).1.is_dead = lst.s.is_dead := by
  refine ⟨?_, ?_, ?_⟩
  · intro hgi hd
    constructor
    · intro h3
      simp [actTail, hgi, hd, h3]
    · intro h3
      simp [actTail, hgi, hd, show ¬ (lst.s.consecutive_timeouts + 1 ≥ 3) from by omega]
  · intro hgi
    simp [actTail, hgi]
  · simp only [actTail]
    repeat' split
    all_goals simp [recoveryLoop_dead]

theorem actLst_ct (s1 : GameState) (keys : List String) (sc : ActScript) :
    (actLst s1 keys sc).s.consecutive_timeouts = s1.consecutive_timeouts := by
  simp only [actLst]
  split
  · show (sc.extra.foldl process_msg _).consecutive_timeouts = _
    rw [(foldl_process_msg_flags _ _).1, actLoop_ct]
    exact (foldl_process_msg_flags _ _).1
  · rw [actLoop_ct]
    exact (foldl_process_msg_flags _ _).1

/-- Claim C5: an exchange that ends with neither ready nor death bumps the
consecutive-timeout counter; at three the recovery sequence runs exactly
once and the counter resets to zero, below three no recovery runs and the
counter holds the incremented value; an exchange that reaches a ready
state runs no recovery and resets the counter to zero. -/
theorem c5_timeout_recovery (s : GameState) (keys : List String) (ni : Int)
    (sc : ActScript) (hw : s.ws = true) (hig : s.in_game = true)
    (hn : ¬ (ni > 0 ∧ s.actions_since_narrate ≥ ni))
    (hp : s.pending_prompt = none) (hm : s.current_menu = none)
    (hpo : s.current_popup = none) :
    ((act s keys false ni sc).gotInput = false →
      (act s keys false ni sc).state.is_dead = false →
      (s.consecutive_timeouts + 1 ≥ 3 →
        (act s keys false ni sc).recoveryRuns = 1 ∧
        (act s keys false ni sc).state.consecutive_timeouts = 0) ∧
      (s.consecutive_timeouts + 1 < 3 →
        (act s keys false ni sc).recoveryRuns = 0 ∧
        (act s keys false ni sc).state.consecutive_timeouts =
          s.consecutive_timeouts + 1)) ∧
    ((act s keys false ni sc).gotInput = true →
      (act s keys false ni sc).recoveryRuns = 0 ∧
      (act s keys false ni sc).state.consecutive_timeouts = 0) := by
  rw [act_exchange_eq s keys ni sc hw hig hn hp hm hpo]
  have hct : (actLst { s with actions_since_narrate := s.actions_since_narrate + 1 }
      keys sc).s.consecutive_timeouts = s.consecutive_timeouts :=
    actLst_ct _ keys sc
  obtain ⟨hA, hB, hdead⟩ :=
    actTail_spec (actLst { s with actions_since_narrate := s.actions_since_narrate + 1 }
      keys sc) sc
  constructor
  · intro hgi hd
    have hd2 := hdead.symm.trans hd
    have hA2 := hA hgi hd2
    constructor
    · intro h3
      exact hA2.1 (by rw [hct]; exact h3)
    · intro h3
      have h := hA2.2 (by rw [hct]; exact h3)
      exact ⟨h.1, h.2.trans (by rw [hct])⟩
  · intro hgi
    exact hB hgi

/-- Witness for C5: with two prior consecutive timeouts and an exchange
that yields no messages at all, recovery runs once and the counter resets
to zero. -/
theorem c5_witness :
    (act cexTimeoutState [] false 0 {}).gotInput = false ∧
    (act cexTimeoutState [] false 0 {}).state.is_dead = false ∧
    (act cexTimeoutState [] false 0 {}).recoveryRuns = 1 ∧
    (act cexTimeoutState [] false 0 {}).state.consecutive_timeouts = 0 :=
  ⟨rfl, rfl,
    ((c5_timeout_recovery cexTimeoutState [] 0 {} rfl rfl (by decide) rfl rfl
      rfl).1 rfl rfl).1 (by decide)⟩

theorem mem_lastN_concat {α : Type} (l : List α) (a : α) :
    a ∈ lastN 5 (l ++ [a]) := by
  unfold lastN
  rw [List.drop_append_of_le_length (by
    simp only [List.length_append, List.length_singleton]
    omega)]
  exact List.mem_append_right _ (List.mem_singleton.mpr rfl)

/-- Claim C3: a text-prompt input mode arriving right after a message
containing the literal stat-increase marker latches the pending-prompt
flag and reports ready; while the flag is latched every ordinary dispatch
is rejected in-band — no keys are sent, the flag survives, and the result
is a single error string; the dedicated stat choice with a valid letter
clears the flag and dispatches the letter as menu traffic. -/
theorem c3_stat_prompt_latch :
    (∀ (st : LoopSt) (pre : List String) (mtext : String),
      st.s.messages = pre ++ [mtext] →
      containsStr mtext "(S)trength" = true →
      handleLoopMsg st (.input_mode 7) =
        { st with s := { st.s with pending_prompt := some "stat_increase" },
                  gotInput := true }) ∧
    (∀ (s : GameState) keys ni sc, s.ws = true → s.in_game = true →
      s.pending_prompt = some "stat_increase" →
      (act s keys false ni sc).sends = [] ∧
      (act s keys false ni sc).state.pending_prompt = some "stat_increase" ∧
      ((act s keys false ni sc).out = [statIncErr] ∨
       (act s keys false ni sc).out = [narrateErr s.actions_since_narrate])) ∧
    (∀ (s : GameState) (stat : String) ni sc,
      (strUpper stat = "S" ∨ strUpper stat = "I" ∨ strUpper stat = "D") →
      s.pending_prompt = some "stat_increase" →
      choose_stat s stat ni sc =
        act { s with pending_prompt := none } [strUpper stat] true ni sc) := by
  refine ⟨?_, ?_, ?_⟩
  · intro st pre mtext hmsg hcontains
    have hany : (lastN 5 st.s.messages).any
        (fun mm => containsStr mm "(S)trength") = true := by
      rw [hmsg]
      exact List.any_eq_true.mpr ⟨mtext, mem_lastN_concat pre mtext, hcontains⟩
    simp [handleLoopMsg, process_msg, hany]
  · intro s keys ni sc hw hig hpend
    by_cases hnar : ni > 0 ∧ s.actions_since_narrate ≥ ni
    · constructor
      · simp [act, hw, hig, hnar]
      · constructor
        · simp [act, hw, hig, hnar, hpend]
        · right
          simp [act, hw, hig, hnar]
    · refine ⟨?_, ?_, Or.inl ?_⟩ <;> simp [act, hw, hig, hnar, hpend]
  · intro s stat ni sc hval hpend
    have hv : ¬ (strUpper stat ≠ "S" ∧ strUpper stat ≠ "I" ∧ strUpper stat ≠ "D") := by
      rcases hval with h | h | h <;> simp [h]
    simp [choose_stat, hv, hpend]

/-- Witness for C3: a valid stat choice on a latched state clears the flag
and dispatches the uppercased letter as menu traffic. -/
theorem c3_witness :
    choose_stat { connectedState with pending_prompt := some "stat_increase" }
      "s" 0 {} =
    act { { connectedState with pending_prompt := some "stat_increase" } with
            pending_prompt := none }
      [strUpper "s"] true 0 {} :=
  c3_stat_prompt_latch.2.2
    { connectedState with pending_prompt := some "stat_increase" } "s" 0 {}
    (Or.inl (by decide)) rfl

/-- Counterexample for C6: dispatch before any connection exists does not
raise — it returns the normal in-band singleton message list
`["Not in game"]` with the state untouched and nothing sent. -/
theorem c6_counterexample :
    act initState [] false 5 {} = ⟨["Not in game"], initState, [], false, false, 0⟩ :=
  rfl

/-- Claim C6 as amended: dispatch always returns a list of message strings
and never raises: every rejection condition — use before a connection
exists included — is reported as a single in-band error string, with no
keys sent and the mirror unchanged save for the narration counter. -/
theorem c6_inband_errors :
    (∀ (s : GameState) keys menu_ok ni sc, s.ws = false ∨ s.in_game = false →
      act s keys menu_ok ni sc = ⟨["Not in game"], s, [], false, false, 0⟩) ∧
    (∀ (s : GameState) keys ni sc, s.ws = true → s.in_game = true →
      ni > 0 ∧ s.actions_since_narrate ≥ ni →
      act s keys false ni sc =
        ⟨[narrateErr s.actions_since_narrate], s, [], false, false, 0⟩) ∧
    (∀ (s : GameState) keys ni sc p, s.ws = true → s.in_game = true →
      ¬ (ni > 0 ∧ s.actions_since_narrate ≥ ni) →
      s.pending_prompt = some p →
      act s keys false ni sc =
        ⟨[if p = "stat_increase" then statIncErr else pendingErr p],
         { s with actions_since_narrate := s.actions_since_narrate + 1 },
         [], false, false, 0⟩) ∧
    (∀ (s : GameState) keys ni sc d, s.ws = true → s.in_game = true →
      ¬ (ni > 0 ∧ s.actions_since_narrate ≥ ni) →
      s.pending_prompt = none → s.current_menu = some d →
      act s keys false ni sc =
        ⟨[menuErr (valueStr ((d "title").getD (.vStr "a menu")))],
         { s with actions_since_narrate := s.actions_since_narrate + 1 },
         [], false, false, 0⟩) ∧
    (∀ (s : GameState) keys ni sc, s.ws = true → s.in_game = true →
      ¬ (ni > 0 ∧ s.actions_since_narrate ≥ ni) →
      s.pending_prompt = none → s.current_menu = none →
      s.current_popup.isSome = true →
      act s keys false ni sc =
        ⟨[popupErr],
         { s with actions_since_narrate := s.actions_since_narrate + 1 },
         [], false, false, 0⟩) := by
  refine ⟨?_, ?_, ?_, ?_, ?_⟩
  · intro s keys menu_ok ni sc h
    rcases h with h | h <;> simp [act, h]
  · intro s keys ni sc hw hig hnar
    simp [act, hw, hig, hnar]
  · intro s keys ni sc p hw hig hnar hpend
    by_cases hps : p = "stat_increase" <;> simp [act, hw, hig, hnar, hpend, hps]
  · intro s keys ni sc d hw hig hnar hpend hmenu
    simp [act, hw, hig, hnar, hpend, hmenu]
  · intro s keys ni sc hw hig hnar hpend hmenu hpop
    simp [act, hw, hig, hnar, hpend, hmenu, hpop]

/-- Witness for C6: the open-popup rejection on a concrete state. -/
theorem c6_witness :
    act { connectedState with current_popup := some emptyDict } [] false 0 {} =
      ⟨[popupErr],
       { { connectedState with current_popup := some emptyDict } with
           actions_since_narrate :=
             { connectedState with
                 current_popup := some emptyDict }.actions_since_narrate + 1 },
       [], false, false, 0⟩ :=
  c6_inband_errors.2.2.2.2 { connectedState with current_popup := some emptyDict }
    [] 0 {} rfl rfl (by decide) rfl rfl rfl

theorem lastWrite_append {α : Type} (a b : List (Option α)) (v : Option α) :
    lastWrite (a ++ b) v = lastWrite b (lastWrite a v) :=
  List.foldl_append _ _ _ _

theorem lastWrite_cons_init {α : Type} (w : Option α) (rest : List (Option α))
    (v u : Option α) : lastWrite (w :: rest) v = lastWrite (w :: rest) u := rfl

theorem lastWrite_self_idem {α : Type} (W : List (Option α)) (v : Option α) :
    lastWrite W (lastWrite W v) = lastWrite W v := by
  cases W <;> rfl

theorem lastSet_append {α : Type} (a b : List α) (v : Option α) :
    lastSet (a ++ b) v = lastSet b (lastSet a v) :=
  List.foldl_append _ _ _ _

theorem lastSet_self_idem {α : Type} (W : List α) (v : Option α) :
    lastSet W (lastSet W v) = lastSet W v := by
  cases W <;> rfl

theorem foldl_proj_char {β : Type} (proj : GameState → Pos → Option β)
    (w : Cell → Option (Option β))
    (hstep : ∀ s p c q, proj (applyCellPayload s p c) q =
      if p = q then (w c).getD (proj s q)
      else proj s q) :
    ∀ (L : List (Pos × Cell)) (s : GameState) (q : Pos),
      proj (L.foldl stepCell s) q =
        lastWrite (L.filterMap fun pc => if pc.1 = q then w pc.2 else none)
          (proj s q) := by
  intro L
  induction L with
  | nil => intro s q; rfl
  | cons pc L ih =>
    intro s q
    rw [List.foldl_cons, ih, List.filterMap_cons]
    by_cases hpq : pc.1 = q
    · rw [if_pos hpq]
      cases hw : w pc.2 with
      | none =>
        have := hstep s pc.1 pc.2 q
        rw [hw] at this
        rw [if_pos hpq] at this
        rw [show stepCell s pc = applyCellPayload s pc.1 pc.2 from rfl, this]
        rfl
      | some v =>
        have := hstep s pc.1 pc.2 q
        rw [hw, if_pos hpq] at this
        rw [show stepCell s pc = applyCellPayload s pc.1 pc.2 from rfl, this]
        rfl
    · rw [if_neg hpq]
      have := hstep s pc.1 pc.2 q
      rw [if_neg hpq] at this
      rw [show stepCell s pc = applyCellPayload s pc.1 pc.2 from rfl, this]

theorem cellG_map_cells_at (s : GameState) (p : Pos) (c : Cell) (q : Pos) :
    (cellG s p c).map_cells q =
      if p = q then (c.g.map some).getD (s.map_cells q)
      else s.map_cells q := by
  by_cases hpq : p = q
  · subst hpq
    cases hg : c.g <;> simp [cellG, hg, fset]
  · have hqp : ¬ q = p := fun h => hpq h.symm
    cases hg : c.g <;> simp [cellG, hg, fset, hpq, hqp]

theorem payload_map_cells_at (s : GameState) (p : Pos) (c : Cell) (q : Pos) :
    (applyCellPayload s p c).map_cells q =
      if p = q then (c.g.map some).getD (s.map_cells q)
      else s.map_cells q := by
  rw [applyCellPayload_stages]
  rw [cellMon_shape, cellFg_shape, cellOv_shape, cellF_shape]
  exact cellG_map_cells_at s p c q

theorem cellF_features_at (s : GameState) (p : Pos) (c : Cell) (q : Pos) :
    (cellF s p c).cell_features q =
      if p = q then (c.f.map some).getD (s.cell_features q)
      else s.cell_features q := by
  by_cases hpq : p = q
  · subst hpq
    cases hf : c.f <;> simp [cellF, hf, fset]
  · have hqp : ¬ q = p := fun h => hpq h.symm
    cases hf : c.f <;> simp [cellF, hf, fset, hpq, hqp]

theorem payload_cell_features_at (s : GameState) (p : Pos) (c : Cell) (q : Pos) :
    (applyCellPayload s p c).cell_features q =
      if p = q then (c.f.map some).getD (s.cell_features q)
      else s.cell_features q := by
  rw [applyCellPayload_stages]
  rw [cellMon_shape, cellFg_shape, cellOv_shape]
  have hbase : (cellG s p c).cell_features = s.cell_features := by
    rw [cellG_shape]
  have h := cellF_features_at (cellG s p c) p c q
  rw [hbase] at h
  exact h

theorem cellFg_tile_at (s : GameState) (p : Pos) (c : Cell) (q : Pos) :
    (cellFg s p c).tile_fg q =
      if p = q then ((c.fg.map fgVal).map some).getD (s.tile_fg q)
      else s.tile_fg q := by
  by_cases hpq : p = q
  · subst hpq
    cases hfg : c.fg with
    | none => simp [cellFg, hfg, fset]
    | some v => cases v <;> simp [cellFg, hfg, fset, fgVal]
  · have hqp : ¬ q = p := fun h => hpq h.symm
    cases hfg : c.fg with
    | none => simp [cellFg, hfg, fset, hpq, hqp]
    | some v => cases v <;> simp [cellFg, hfg, fset, fgVal, hpq, hqp]

theorem payload_tile_fg_at (s : GameState) (p : Pos) (c : Cell) (q : Pos) :
    (applyCellPayload s p c).tile_fg q =
      if p = q then ((c.fg.map fgVal).map some).getD (s.tile_fg q)
      else s.tile_fg q := by
  rw [applyCellPayload_stages]
  rw [cellMon_shape]
  have hbase : (cellOv (cellF (cellG s p c) p c) p c).tile_fg = s.tile_fg := by
    rw [cellOv_shape, cellF_shape, cellG_shape]
  have h := cellFg_tile_at (cellOv (cellF (cellG s p c) p c) p c) p c q
  rw [hbase] at h
  exact h

theorem cellOv_overlays_at (s : GameState) (p : Pos) (c : Cell) (q : Pos) :
    (cellOv s p c).cell_overlays q =
      if p = q then ovVal c else s.cell_overlays q := by
  by_cases hpq : p = q
  · subst hpq
    cases hov : extractOverlays c with
    | nil =>
      by_cases hs : (s.cell_overlays p).isSome
      · simp [cellOv, hov, ovVal, fset, hs]
      · have hnone := Option.not_isSome_iff_eq_none.mp hs
        simp [cellOv, hov, ovVal, fset, hs, hnone]
    | cons kv l => simp [cellOv, hov, ovVal, fset]
  · have hqp : ¬ q = p := fun h => hpq h.symm
    cases hov : extractOverlays c with
    | nil =>
      by_cases hs : (s.cell_overlays p).isSome <;>
        simp [cellOv, hov, ovVal, fset, hs, hpq, hqp]
    | cons kv l => simp [cellOv, hov, ovVal, fset, hpq, hqp]

theorem payload_cell_overlays_at (s : GameState) (p : Pos) (c : Cell) (q : Pos) :
    (applyCellPayload s p c).cell_overlays q =
      if p = q then
        (some (ovVal c) : Option (Option (List (String × Value)))).getD
          (s.cell_overlays q)
      else s.cell_overlays q := by
  rw [applyCellPayload_stages]
  rw [cellMon_shape, cellFg_shape]
  have hbase : (cellF (cellG s p c) p c).cell_overlays = s.cell_overlays := by
    rw [cellF_shape, cellG_shape]
  have h := cellOv_overlays_at (cellF (cellG s p c) p c) p c q
  rw [hbase] at h
  exact h

theorem fset_self {α β : Type} [DecidableEq α] (m : α → Option β) (a : α)
    (b : Option β) : fset m a b a = b := by
  simp [fset]

theorem stagesBelow_monsters (s : GameState) (p : Pos) (c : Cell) :
    (cellFg (cellOv (cellF (cellG s p c) p c) p c) p c).monsters = s.monsters := by
  rw [cellFg_shape, cellOv_shape, cellF_shape, cellG_shape]

theorem stagesBelow_names (s : GameState) (p : Pos) (c : Cell) :
    (cellFg (cellOv (cellF (cellG s p c) p c) p c) p c).monster_names =
      s.monster_names := by
  rw [cellFg_shape, cellOv_shape, cellF_shape, cellG_shape]

theorem cellMon_names (s : GameState) (p : Pos) (c : Cell) :
    (cellMon s p c).monster_names = nameFoldF s.monster_names (p, c) := by
  cases hm : c.mon with
  | absent => simp [cellMon, nameFoldF, nameWrite, hm]
  | falsy =>
    simp only [cellMon, nameFoldF, nameWrite, hm]
    split <;> rfl
  | mons m =>
    simp only [cellMon, nameFoldF, nameWrite, hm]
    repeat' split
    all_goals try (rename_i inm heq; cases inm)
    all_goals simp_all

theorem payload_names (s : GameState) (p : Pos) (c : Cell) :
    (applyCellPayload s p c).monster_names = nameFoldF s.monster_names (p, c) := by
  rw [applyCellPayload_stages, cellMon_names, stagesBelow_names]

theorem cellMon_monsters_other (s : GameState) (p : Pos) (c : Cell) (q : Pos)
    (hqp : ¬ q = p) : (cellMon s p c).monsters q = s.monsters q := by
  cases hm : c.mon with
  | absent => simp [cellMon, hm]
  | falsy =>
    simp only [cellMon, hm]
    split <;> simp [fset, hqp]
  | mons m =>
    simp only [cellMon, hm]
    simp [fset, hqp]

theorem payload_monsters_other (s : GameState) (p : Pos) (c : Cell) (q : Pos)
    (hqp : ¬ q = p) : (applyCellPayload s p c).monsters q = s.monsters q := by
  rw [applyCellPayload_stages,
    cellMon_monsters_other (cellFg (cellOv (cellF (cellG s p c) p c) p c) p c)
      p c q hqp, stagesBelow_monsters]

theorem cellMon_monsters_absent (s : GameState) (p : Pos) (c : Cell) (q : Pos)
    (hm : c.mon = .absent) : (cellMon s p c).monsters q = s.monsters q := by
  simp [cellMon, hm]

theorem payload_monsters_absent (s : GameState) (p : Pos) (c : Cell) (q : Pos)
    (hm : c.mon = .absent) :
    (applyCellPayload s p c).monsters q = s.monsters q := by
  rw [applyCellPayload_stages,
    cellMon_monsters_absent (cellFg (cellOv (cellF (cellG s p c) p c) p c) p c)
      p c q hm, stagesBelow_monsters]

theorem cellMon_monsters_falsy (s : GameState) (p : Pos) (c : Cell)
    (hm : c.mon = .falsy) : (cellMon s p c).monsters p = none := by
  simp only [cellMon, hm]
  split
  · simp [fset]
  · rename_i hs
    exact Option.not_isSome_iff_eq_none.mp (by simpa using hs)

theorem payload_monsters_falsy (s : GameState) (p : Pos) (c : Cell)
    (hm : c.mon = .falsy) : (applyCellPayload s p c).monsters p = none := by
  rw [applyCellPayload_stages]
  exact cellMon_monsters_falsy _ p c hm

theorem cellMon_monsters_mons (s : GameState) (p : Pos) (c : Cell) (m : Dict)
    (hm : c.mon = .mons m) :
    ∃ e, (cellMon s p c).monsters p = some e ∧
      ∀ k v, m k = some v → e k = some v := by
  simp only [cellMon, hm]
  refine ⟨_, fset_self s.monsters p _, ?_⟩
  intro k v hk
  have hupd : dictUpdate ((s.monsters p).getD emptyDict) m k = some v := by
    simp [dictUpdate, hk]
  by_cases hcond : dictUpdate ((s.monsters p).getD emptyDict) m "name" = none
  · have hkname : ¬ k = "name" := by
      intro hkn
      subst hkn
      rw [hupd] at hcond
      simp at hcond
    rw [if_pos hcond]
    have key : ∀ (d : Dict) (nm : Value), d k = some v →
        dictSet d "name" nm k = some v := by
      intro d nm hd
      simpa [dictSet, hkname] using hd
    cases hmid : monId m with
    | none => exact hupd
    | some i =>
      cases hnm : m "name" with
      | some nm => simp [fset, dictSet, hkname, dictUpdate, hk]
      | none =>
        dsimp only
        cases hni : s.monster_names i with
        | none => exact hupd
        | some nm => exact key _ nm hupd
  · rw [if_neg hcond]
    exact hupd

theorem payload_monsters_mons (s : GameState) (p : Pos) (c : Cell) (m : Dict)
    (hm : c.mon = .mons m) :
    ∃ e, (applyCellPayload s p c).monsters p = some e ∧
      ∀ k v, m k = some v → e k = some v := by
  rw [applyCellPayload_stages]
  exact cellMon_monsters_mons _ p c m hm

theorem cellMon_monsters_at_named (s : GameState) (p : Pos) (c : Cell) (q : Pos)
    (hc : monNameOkCell c = true) :
    (cellMon s p c).monsters q =
      if p = q then
        (match c.mon with
         | .absent => s.monsters q
         | .falsy => none
         | .mons m => some (dictUpdate ((s.monsters q).getD emptyDict) m))
      else s.monsters q := by
  by_cases hpq : p = q
  · subst hpq
    cases hm : c.mon with
    | absent => simp [cellMon, hm]
    | falsy => rw [cellMon_monsters_falsy s p c hm]; simp
    | mons m =>
      obtain ⟨nm, hnm⟩ := Option.isSome_iff_exists.mp
        (by simpa [monNameOkCell, hm] using hc)
      simp only [cellMon, hm]
      have hcond : ¬ dictUpdate ((s.monsters p).getD emptyDict) m "name" = none := by
        simp [dictUpdate, hnm]
      simp [fset, hcond]
  · rw [if_neg hpq]
    exact cellMon_monsters_other s p c q (fun h => hpq h.symm)

theorem payload_monsters_at_named (s : GameState) (p : Pos) (c : Cell) (q : Pos)
    (hc : monNameOkCell c = true) :
    (applyCellPayload s p c).monsters q =
      if p = q then
        (match c.mon with
         | .absent => s.monsters q
         | .falsy => none
         | .mons m => some (dictUpdate ((s.monsters q).getD emptyDict) m))
      else s.monsters q := by
  rw [applyCellPayload_stages,
    cellMon_monsters_at_named (cellFg (cellOv (cellF (cellG s p c) p c) p c) p c)
      p c q hc, stagesBelow_monsters]

theorem applyCells_eq_foldl (cells : List Cell) :
    ∀ cur (s : GameState), applyCells s cur cells =
      (resolveCells cur cells).foldl stepCell s := by
  induction cells with
  | nil => intro cur s; rfl
  | cons c rest ih =>
    intro cur s
    rcases habs : absorbCell cur c with ⟨_ | x, _ | y⟩ <;>
      simp only [applyCells, resolveCells, habs, List.foldl_cons]
    · exact ih _ s
    · exact ih _ s
    · exact ih _ s
    · exact ih _ (applyCellPayload s (x, y) c)

theorem resolveCells_sub (cells : List Cell) :
    ∀ cur pc, pc ∈ resolveCells cur cells → pc.2 ∈ cells := by
  induction cells with
  | nil => intro cur pc h; exact absurd h (List.not_mem_nil pc)
  | cons c rest ih =>
    intro cur pc h
    rcases habs : absorbCell cur c with ⟨_ | x, _ | y⟩ <;>
      simp only [resolveCells, habs] at h
    · exact List.mem_cons_of_mem c (ih _ pc h)
    · exact List.mem_cons_of_mem c (ih _ pc h)
    · exact List.mem_cons_of_mem c (ih _ pc h)
    · rcases List.mem_cons.mp h with heq | hmem
      · rw [heq]
        exact List.mem_cons_self c rest
      · exact List.mem_cons_of_mem c (ih _ pc hmem)

theorem update_map_map_cells_at (s : GameState) (cells : List Cell) (q : Pos) :
    (update_map s cells).map_cells q =
      lastWrite ((resolveCells (none, none) cells).filterMap
        fun pc => if pc.1 = q then pc.2.g.map some else none) (s.map_cells q) := by
  cases cells with
  | nil => rfl
  | cons c rest =>
    rw [show update_map s (c :: rest) = applyCells s (none, none) (c :: rest) from rfl,
      applyCells_eq_foldl]
    exact foldl_proj_char (fun t => t.map_cells) (fun c => c.g.map some)
      (fun t p c q => payload_map_cells_at t p c q) _ s q

theorem update_map_features_at (s : GameState) (cells : List Cell) (q : Pos) :
    (update_map s cells).cell_features q =
      lastWrite ((resolveCells (none, none) cells).filterMap
        fun pc => if pc.1 = q then pc.2.f.map some else none) (s.cell_features q) := by
  cases cells with
  | nil => rfl
  | cons c rest =>
    rw [show update_map s (c :: rest) = applyCells s (none, none) (c :: rest) from rfl,
      applyCells_eq_foldl]
    exact foldl_proj_char (fun t => t.cell_features) (fun c => c.f.map some)
      (fun t p c q => payload_cell_features_at t p c q) _ s q

theorem update_map_tile_fg_at (s : GameState) (cells : List Cell) (q : Pos) :
    (update_map s cells).tile_fg q =
      lastWrite ((resolveCells (none, none) cells).filterMap
        fun pc => if pc.1 = q then (pc.2.fg.map fgVal).map some else none)
        (s.tile_fg q) := by
  cases cells with
  | nil => rfl
  | cons c rest =>
    rw [show update_map s (c :: rest) = applyCells s (none, none) (c :: rest) from rfl,
      applyCells_eq_foldl]
    exact foldl_proj_char (fun t => t.tile_fg) (fun c => (c.fg.map fgVal).map some)
      (fun t p c q => payload_tile_fg_at t p c q) _ s q

theorem update_map_overlays_at (s : GameState) (cells : List Cell) (q : Pos) :
    (update_map s cells).cell_overlays q =
      lastWrite ((resolveCells (none, none) cells).filterMap
        fun pc => if pc.1 = q then some (ovVal pc.2) else none)
        (s.cell_overlays q) := by
  cases cells with
  | nil => rfl
  | cons c rest =>
    rw [show update_map s (c :: rest) = applyCells s (none, none) (c :: rest) from rfl,
      applyCells_eq_foldl]
    exact foldl_proj_char (fun t => t.cell_overlays) (fun c => some (ovVal c))
      (fun t p c q => payload_cell_overlays_at t p c q) _ s q

theorem foldl_stepCell_names (L : List (Pos × Cell)) :
    ∀ s : GameState, (L.foldl stepCell s).monster_names =
      L.foldl nameFoldF s.monster_names := by
  induction L with
  | nil => intro s; rfl
  | cons pc L ih =>
    intro s
    rw [List.foldl_cons, List.foldl_cons, ih]
    exact congrArg (fun N => List.foldl nameFoldF N L) (payload_names s pc.1 pc.2)

theorem foldl_nameFoldF_at (L : List (Pos × Cell)) :
    ∀ (N : Value → Option Value) (j : Value),
      L.foldl nameFoldF N j = lastSet (nameWrites j L) (N j) := by
  induction L with
  | nil => intro N j; rfl
  | cons pc L ih =>
    intro N j
    rw [List.foldl_cons, ih]
    cases hnw : nameWrite pc.2 with
    | none =>
      have h1 : nameFoldF N pc = N := by simp [nameFoldF, hnw]
      have h2 : nameWrites j (pc :: L) = nameWrites j L := by
        simp [nameWrites, List.filterMap_cons, hnw]
      rw [h1, h2]
    | some inm =>
      obtain ⟨i, nm⟩ := inm
      have h1 : nameFoldF N pc = fset N i (some nm) := by simp [nameFoldF, hnw]
      by_cases hij : i = j
      · subst hij
        have h2 : nameWrites i (pc :: L) = nm :: nameWrites i L := by
          simp [nameWrites, List.filterMap_cons, hnw]
        rw [h1, h2, fset_self]
        rfl
      · have hji : ¬ j = i := fun hh => hij hh.symm
        have h2 : nameWrites j (pc :: L) = nameWrites j L := by
          simp [nameWrites, List.filterMap_cons, hnw, hij]
        have h3 : fset N i (some nm) j = N j := by simp [fset, hji]
        rw [h1, h2, h3]

theorem update_map_names_at (s : GameState) (cells : List Cell) (j : Value) :
    (update_map s cells).monster_names j =
      lastSet (nameWrites j (resolveCells (none, none) cells))
        (s.monster_names j) := by
  cases cells with
  | nil => rfl
  | cons c rest =>
    rw [show update_map s (c :: rest) = applyCells s (none, none) (c :: rest) from rfl,
      applyCells_eq_foldl, foldl_stepCell_names, foldl_nameFoldF_at]

theorem foldl_stepCell_monsters (L : List (Pos × Cell)) :
    ∀ (s : GameState) (q : Pos), (∀ pc ∈ L, monNameOkCell pc.2 = true) →
      (L.foldl stepCell s).monsters q = chainM (monActsAt q L) (s.monsters q) := by
  induction L with
  | nil => intro s q _; rfl
  | cons pc L ih =>
    intro s q hok
    have hokpc : monNameOkCell pc.2 = true := hok pc (List.mem_cons_self pc L)
    rw [List.foldl_cons,
      ih (stepCell s pc) q (fun x hx => hok x (List.mem_cons_of_mem pc hx))]
    by_cases hpq : pc.1 = q
    · cases hm : pc.2.mon with
      | absent =>
        have hacts : monActsAt q (pc :: L) = monActsAt q L := by
          simp [monActsAt, List.filterMap_cons, hpq, hm]
        rw [hacts]
        exact congrArg (chainM (monActsAt q L))
          (payload_monsters_absent s pc.1 pc.2 q hm)
      | falsy =>
        have hacts : monActsAt q (pc :: L) = MonField.falsy :: monActsAt q L := by
          simp [monActsAt, List.filterMap_cons, hpq, hm]
        rw [hacts,
          show chainM (MonField.falsy :: monActsAt q L) (s.monsters q)
            = chainM (monActsAt q L) none from rfl]
        have h2 : (applyCellPayload s pc.1 pc.2).monsters q = none := by
          rw [← hpq]
          exact payload_monsters_falsy s pc.1 pc.2 hm
        exact congrArg (chainM (monActsAt q L)) h2
      | mons m =>
        have hacts : monActsAt q (pc :: L) = MonField.mons m :: monActsAt q L := by
          simp [monActsAt, List.filterMap_cons, hpq, hm]
        rw [hacts,
          show chainM (MonField.mons m :: monActsAt q L) (s.monsters q)
            = chainM (monActsAt q L)
                (some (dictUpdate ((s.monsters q).getD emptyDict) m)) from rfl]
        have h2 := payload_monsters_at_named s pc.1 pc.2 q hokpc
        rw [if_pos hpq, hm] at h2
        exact congrArg (chainM (monActsAt q L)) h2
    · have hacts : monActsAt q (pc :: L) = monActsAt q L := by
        simp [monActsAt, List.filterMap_cons, hpq]
      rw [hacts]
      exact congrArg (chainM (monActsAt q L))
        (payload_monsters_other s pc.1 pc.2 q (fun hh => hpq hh.symm))

theorem update_map_monsters_at (s : GameState) (cells : List Cell) (q : Pos)
    (h : monNamesOk cells = true) :
    (update_map s cells).monsters q =
      chainM (monActsAt q (resolveCells (none, none) cells)) (s.monsters q) := by
  cases cells with
  | nil => rfl
  | cons c rest =>
    rw [show update_map s (c :: rest) = applyCells s (none, none) (c :: rest) from rfl,
      applyCells_eq_foldl]
    refine foldl_stepCell_monsters _ s q ?_
    intro pc hpc
    have hmem : pc.2 ∈ c :: rest := resolveCells_sub (c :: rest) (none, none) pc hpc
    simp only [monNamesOk, List.all_eq_true] at h
    exact h pc.2 hmem

theorem chainM_append (a b : List MonField) (v : Option Dict) :
    chainM (a ++ b) v = chainM b (chainM a v) :=
  List.foldl_append _ _ _ _

theorem chainM_const_of_del (acts : List MonField)
    (h : MonField.falsy ∈ acts) (v w : Option Dict) :
    chainM acts v = chainM acts w := by
  obtain ⟨pre, suf, hsplit⟩ := List.append_of_mem h
  subst hsplit
  rw [chainM_append, chainM_append]
  rw [show ∀ u : Option Dict, chainM (MonField.falsy :: suf) u = chainM suf none
      from fun u => rfl,
    show ∀ u : Option Dict, chainM (MonField.falsy :: suf) u = chainM suf none
      from fun u => rfl]

theorem keyWrites_cons_mons (k : String) (m : Dict) (acts : List MonField) :
    keyWrites k (MonField.mons m :: acts) =
      match m k with
      | some w => w :: keyWrites k acts
      | none => keyWrites k acts := by
  simp only [keyWrites, List.filterMap_cons]
  cases m k <;> rfl

theorem chainM_mons_char (acts : List MonField)
    (h : ∀ a ∈ acts, isDelAct a = false) :
    ∀ d : Dict, chainM acts (some d) =
      some (fun k => lastSet (keyWrites k acts) (d k)) := by
  induction acts with
  | nil => intro d; rfl
  | cons a acts ih =>
    intro d
    have htail : ∀ x ∈ acts, isDelAct x = false :=
      fun x hx => h x (List.mem_cons_of_mem a hx)
    cases a with
    | absent =>
      rw [show chainM (MonField.absent :: acts) (some d) = chainM acts (some d)
          from rfl, ih htail]
      simp only [show ∀ k, keyWrites k (MonField.absent :: acts) = keyWrites k acts
        from fun k => rfl]
    | falsy => exact absurd (h _ (List.mem_cons_self _ _)) (by simp [isDelAct])
    | mons m =>
      rw [show chainM (MonField.mons m :: acts) (some d)
          = chainM acts (some (dictUpdate d m)) from rfl, ih htail]
      congr 1
      funext k
      rw [keyWrites_cons_mons]
      cases hmk : m k with
      | none =>
        rw [show dictUpdate d m k = d k from by simp [dictUpdate, hmk]]
      | some w =>
        rw [show dictUpdate d m k = some w from by simp [dictUpdate, hmk]]
        rfl

theorem chainM_idem (acts : List MonField)
    (hna : ∀ a ∈ acts, a ≠ MonField.absent) (v : Option Dict) :
    chainM acts (chainM acts v) = chainM acts v := by
  by_cases hdel : MonField.falsy ∈ acts
  · exact chainM_const_of_del acts hdel _ v
  · cases acts with
    | nil => rfl
    | cons a acts =>
      have htail : ∀ x ∈ acts, isDelAct x = false := by
        intro x hx
        cases x with
        | absent => rfl
        | falsy => exact absurd (List.mem_cons_of_mem a hx) hdel
        | mons m => rfl
      cases a with
      | absent => exact absurd rfl (hna _ (List.mem_cons_self _ _))
      | falsy => exact absurd (List.mem_cons_self _ _) hdel
      | mons m =>
        rw [show ∀ u : Option Dict, chainM (MonField.mons m :: acts) u
            = chainM acts (some (dictUpdate (u.getD emptyDict) m))
            from fun u => rfl,
          show ∀ u : Option Dict, chainM (MonField.mons m :: acts) u
            = chainM acts (some (dictUpdate (u.getD emptyDict) m))
            from fun u => rfl,
          chainM_mons_char acts htail, chainM_mons_char acts htail]
        congr 1
        funext k
        simp only [dictUpdate, Option.getD_some]
        cases hmk : m k with
        | none =>
          simp only [hmk]
          exact lastSet_self_idem _ _
        | some w => simp only [hmk]

theorem monActsAt_no_absent (q : Pos) (L : List (Pos × Cell)) :
    ∀ a ∈ monActsAt q L, a ≠ MonField.absent := by
  intro a ha heq
  subst heq
  obtain ⟨pc, hpc, hf⟩ := List.mem_filterMap.mp ha
  by_cases hpq : pc.1 = q
  · rw [if_pos hpq] at hf
    cases hm : pc.2.mon <;> rw [hm] at hf <;> simp at hf
  · rw [if_neg hpq] at hf
    simp at hf

/-- Claim C1 as amended: with every monster sub-object of the batch
carrying a `name` (so the cached-name injection cannot fire), the monster
entry a map-diff batch leaves at any coordinate is the left-to-right fold
of that coordinate's monster writes over the *previous* entry — each
`mon` sub-object merges into (never replaces) what was there, a falsy
`mon` deletes, and in particular a coordinate mentioned in the batch
without any `mon` key keeps its previous monster entry unchanged: the
batch is not authoritative over the cells it mentions. -/
theorem c1_monster_merge (s : GameState) (cells : List Cell)
    (h : monNamesOk cells = true) (q : Pos) :
    (update_map s cells).monsters q =
      chainM (monActsAt q (resolveCells (none, none) cells)) (s.monsters q) ∧
    (monActsAt q (resolveCells (none, none) cells) = [] →
      (update_map s cells).monsters q = s.monsters q) := by
  refine ⟨update_map_monsters_at s cells q h, fun hempty => ?_⟩
  rw [update_map_monsters_at s cells q h, hempty]
  rfl

/-- Counterexample for C1 as stated: in a batch that mentions `(0,0)`
with a glyph-only diff and `(1,0)` with a monster diff `{id, name}`, the
previously stored monster at `(0,0)` survives (the claim demands no
monster entry there), and the entry at `(1,0)` still carries the previous
occupant's `threat` field (the claim demands exactly the diff's data). -/
theorem c1_counterexample :
    ((update_map cexMapState cexMonBatch).monsters ((0 : Int), (0 : Int))).isSome
      = true ∧
    ((update_map cexMapState cexMonBatch).monsters ((1 : Int), (0 : Int))).map
      (fun e => e "threat") = some (some (Value.vInt 9)) := by
  exact ⟨by decide, by decide⟩

/-- Witness for C1 on the concrete stale-monster state and batch. -/
theorem c1_witness :
    monNamesOk cexMonBatch = true ∧
    (update_map cexMapState cexMonBatch).monsters ((1 : Int), (0 : Int)) =
      chainM (monActsAt ((1 : Int), (0 : Int))
          (resolveCells (none, none) cexMonBatch))
        (cexMapState.monsters ((1 : Int), (0 : Int))) :=
  ⟨by decide,
   (c1_monster_merge cexMapState cexMonBatch (by decide)
     ((1 : Int), (0 : Int))).1⟩

/-- Claim C4 as amended: applying a map-diff batch twice in succession
yields a state identical to applying it once, provided every monster
sub-object of the batch carries a `name` field — without that proviso the
second application can back-fill a monster name from the cache populated
by the first (see the counterexample). -/
theorem c4_idem (s : GameState) (cells : List Cell)
    (h : monNamesOk cells = true) :
    update_map (update_map s cells) cells = update_map s cells := by
  have hmc : (update_map (update_map s cells) cells).map_cells
      = (update_map s cells).map_cells := by
    funext q
    rw [update_map_map_cells_at, update_map_map_cells_at]
    exact lastWrite_self_idem _ _
  have hcf : (update_map (update_map s cells) cells).cell_features
      = (update_map s cells).cell_features := by
    funext q
    rw [update_map_features_at, update_map_features_at]
    exact lastWrite_self_idem _ _
  have hov : (update_map (update_map s cells) cells).cell_overlays
      = (update_map s cells).cell_overlays := by
    funext q
    rw [update_map_overlays_at, update_map_overlays_at]
    exact lastWrite_self_idem _ _
  have hfg : (update_map (update_map s cells) cells).tile_fg
      = (update_map s cells).tile_fg := by
    funext q
    rw [update_map_tile_fg_at, update_map_tile_fg_at]
    exact lastWrite_self_idem _ _
  have hmon : (update_map (update_map s cells) cells).monsters
      = (update_map s cells).monsters := by
    funext q
    rw [update_map_monsters_at _ _ _ h, update_map_monsters_at _ _ _ h]
    exact chainM_idem _ (monActsAt_no_absent q _) _
  have hnm : (update_map (update_map s cells) cells).monster_names
      = (update_map s cells).monster_names := by
    funext j
    rw [update_map_names_at, update_map_names_at]
    exact lastSet_self_idem _ _
  rw [update_map_shape (update_map s cells) cells, hmc, hcf, hov, hfg, hmon, hnm]

/-- Counterexample for C4 as stated: replaying a batch whose first cell
has a nameless monster `{id: 5}` and whose second cell caches a name for
id 5 is not a no-op — the second application back-fills the cached name
into the entry at `(0,0)`, which the first application left nameless. -/
theorem c4_counterexample :
    update_map (update_map initState cexIdemBatch) cexIdemBatch ≠
      update_map initState cexIdemBatch := by
  intro hcontra
  have h2 := congrArg
    (fun t => (t.monsters ((0 : Int), (0 : Int))).map (fun e => e "name")) hcontra
  exact absurd h2 (by decide)

/-- Witness for C4 on the concrete stale-monster state and name-complete
batch. -/
theorem c4_witness :
    monNamesOk cexMonBatch = true ∧
    update_map (update_map cexMapState cexMonBatch) cexMonBatch =
      update_map cexMapState cexMonBatch :=
  ⟨by decide, c4_idem cexMapState cexMonBatch (by decide)⟩

end Dcss
